import Mathlib

/-!
# Verification of the App selector store of the appgroup credential backend

This file embeds the App-path handlers of `builtin/credential/appgroup`
(`appStorageEntry`, `setAppEntry`, `appEntry`, `pathAppCreateUpdate`, the
per-field update/read/delete handlers, and the credential issuance handlers)
and proves the specified properties about them.

Modelling conventions:
* Go `time.Duration` is an `int64` counting nanoseconds; we model it as `Int`
  reduced into the `int64` range with `wrap64` wherever the code multiplies
  (`time.Second * time.Duration(x)`).
* Go `int` is modelled as `Int` (the handlers only compare these values, so
  no further wrapping arises).
* The durable key-value store (`logical.Storage`) is an association list from
  full string keys to stored values; `Put` replaces the binding of its key and
  `Get` looks the key up.  The backend's two key namespaces (`app/<name>` for
  selector configs and the salted-hash namespace for UserID entries) live in
  this single map, as they do in the real store.
* `strings.ToLower` is modelled by `lowerStr`, mapping `Char.toLower` over the
  characters (the ASCII-latin range, which is the range exercised by the
  handlers' keys).
-/

namespace AppGroup

/-- Reduce an integer into the `int64` range, the wrap-around behaviour of
Go's 64-bit integer arithmetic. -/
def wrap64 (x : Int) : Int := (x + 2 ^ 63) % 2 ^ 64 - 2 ^ 63

/-- Converts `time.Second * time.Duration(x)` for a second count `x` supplied as a Go
`int`: nanoseconds, with `int64` wrap-around. -/
def durationFromSeconds (x : Int) : Int := wrap64 (x * 1000000000)

/-- Record `appStorageEntry` stores all the options that are set on an App
(TTL fields in nanoseconds, as `time.Duration`). -/
structure appStorageEntry where
  Policies : List String
  NumUses : Int
  UserIDTTL : Int
  TokenTTL : Int
  TokenMaxTTL : Int
  WrapTTL : Int
deriving Repr, DecidableEq

/-- The Go zero value `appStorageEntry{}`. -/
def zeroAppStorageEntry : appStorageEntry :=
  { Policies := [], NumUses := 0, UserIDTTL := 0, TokenTTL := 0
    TokenMaxTTL := 0, WrapTTL := 0 }

/-- The usage-tracking record stored for an issued UserID
(`userIDStorageEntry`): the fields set by `handleAppCredsCommon` plus the
selector back-reference recorded at registration time. -/
structure userIDStorageEntry where
  SelectorType : String
  SelectorName : String
  NumUses : Int
  UserIDTTL : Int
deriving Repr, DecidableEq

/-- A value held by the durable store: an App selector config under an
`app/` key, or a UserID entry under a salted-hash key. -/
inductive StorageValue where
  | app (e : appStorageEntry)
  | userID (e : userIDStorageEntry)
deriving Repr, DecidableEq

/-- The durable key-value store (`logical.Storage`): an association list from
full keys to values; the binding closest to the head wins. -/
abbrev Storage := List (String × StorageValue)

/-- Operation `Storage.Get`. -/
def storageGet (st : Storage) (k : String) : Option StorageValue :=
  (st.find? (fun p => p.1 == k)).map (fun p => p.2)

/-- Operation `Storage.Put`: replaces the binding of `k`. -/
def storagePut (st : Storage) (k : String) (v : StorageValue) : Storage :=
  (k, v) :: st.filter (fun p => p.1 != k)

/-- Operation `Storage.Delete`: removes the binding of `k`. -/
def storageDelete (st : Storage) (k : String) : Storage :=
  st.filter (fun p => p.1 != k)

/-- Model of `strings.ToLower` (restricted to the basic-latin range handled by
`Char.toLower`). -/
def lowerStr (s : String) : String := String.mk (s.data.map Char.toLower)

/-- Modelled from the spec: the external Policy Parser collaborator
(`policyutil.ParsePolicies`, not part of this repository): splits a
comma-separated string, normalizes each item (trim, lower-case), drops
empties and deduplicates.  The claims below only compare applications of
this function to each other, never its internals. -/
def ParsePolicies (s : String) : List String :=
  ((((s.splitOn ",").map (fun p => lowerStr p.trim)).filter
    (fun p => p != "")).eraseDups)

/-- The input fields of a request (`framework.FieldData`): `none` means the
field was not supplied (`GetOk` reports absence); `data.Get` falls back to
the schema default. -/
structure AppFieldData where
  app_name : String
  policies : Option String := none
  num_uses : Option Int := none
  userid_ttl : Option Int := none
  token_ttl : Option Int := none
  token_max_ttl : Option Int := none
  wrap_ttl : Option Int := none
  user_id : Option String := none
deriving Repr, DecidableEq

/-- A value in a response's `Data` map. -/
inductive RespVal where
  | str (s : String)
  | int (n : Int)
  | strList (l : List String)
deriving Repr, DecidableEq

/-- A non-nil `*logical.Response`: an error response or a data response. -/
inductive Response where
  | error (msg : String)
  | withData (d : List (String × RespVal))
deriving Repr, DecidableEq

/-- The `(resp *logical.Response, err error)` pair a handler returns,
together with the storage as left behind by the handler. -/
structure HResult where
  resp : Option Response
  err : Option String
  store : Storage
deriving Repr, DecidableEq

/-- Result of `appEntry`: the record, "not found", or a Go error. -/
inductive EntryResult where
  | err (msg : String)
  | missing
  | found (e : appStorageEntry)
deriving Repr, DecidableEq

/-- The type of request operation relevant to `pathAppCreateUpdate`. -/
inductive Operation where
  | create
  | update
deriving Repr, DecidableEq

/-- The storage key of an App: `"app/" + strings.ToLower(appName)`. -/
def appKey (appName : String) : String := "app/" ++ lowerStr appName

/-- Function `setAppEntry` stores the options on an App into the storage
(under the exclusive `appLock`). -/
def setAppEntry (st : Storage) (appName : String) (app : appStorageEntry) :
    Storage :=
  storagePut st (appKey appName) (.app app)

/-- Function `appEntry` fetches the options of an App from the storage (under the
shared `appLock`); returns the record, `missing` when the key is absent, or
an error (empty name, or a value that does not decode as an App record). -/
def appEntry (st : Storage) (appName : String) : EntryResult :=
  if appName = "" then .err "missing app_name"
  else
    match storageGet st (appKey appName) with
    | none => .missing
    | some (.app e) => .found e
    | some (.userID _) => .err "failed to decode App entry"

/-! ## `pathAppCreateUpdate`: per-field merge steps, in source order.

Each `merge*` function is one `if ... GetOk ... else if CreateOperation`
block of `pathAppCreateUpdate`: a supplied field overwrites; an unsupplied
field is defaulted (`data.Get` of the schema default) on create and kept on
update.  `wrap_ttl` has no create branch in the source. -/

def mergePolicies (op : Operation) (app : appStorageEntry)
    (d : AppFieldData) : appStorageEntry :=
  match d.policies with
  | some s => { app with Policies := ParsePolicies s }
  | none =>
    if op = .create then { app with Policies := ParsePolicies "default" }
    else app

def mergeNumUses (op : Operation) (app : appStorageEntry)
    (d : AppFieldData) : appStorageEntry :=
  match d.num_uses with
  | some n => { app with NumUses := n }
  | none => if op = .create then { app with NumUses := 0 } else app

def mergeUserIDTTL (op : Operation) (app : appStorageEntry)
    (d : AppFieldData) : appStorageEntry :=
  match d.userid_ttl with
  | some n => { app with UserIDTTL := durationFromSeconds n }
  | none =>
    if op = .create then { app with UserIDTTL := durationFromSeconds 0 }
    else app

def mergeTokenTTL (op : Operation) (app : appStorageEntry)
    (d : AppFieldData) : appStorageEntry :=
  match d.token_ttl with
  | some n => { app with TokenTTL := durationFromSeconds n }
  | none =>
    if op = .create then { app with TokenTTL := durationFromSeconds 0 }
    else app

def mergeTokenMaxTTL (op : Operation) (app : appStorageEntry)
    (d : AppFieldData) : appStorageEntry :=
  match d.token_max_ttl with
  | some n => { app with TokenMaxTTL := durationFromSeconds n }
  | none =>
    if op = .create then { app with TokenMaxTTL := durationFromSeconds 0 }
    else app

def mergeWrapTTL (app : appStorageEntry) (d : AppFieldData) :
    appStorageEntry :=
  match d.wrap_ttl with
  | some n => { app with WrapTTL := durationFromSeconds n }
  | none => app

/-- The full merged record a create/update request denotes, before the
interleaved validation checks of `pathAppCreateUpdate` are applied. -/
def mergedApp (op : Operation) (app : appStorageEntry)
    (d : AppFieldData) : appStorageEntry :=
  mergeWrapTTL
    (mergeTokenMaxTTL op
      (mergeTokenTTL op
        (mergeUserIDTTL op
          (mergeNumUses op
            (mergePolicies op app d) d) d) d) d) d

/-- Body of `pathAppCreateUpdate` after the record fetch: merge the
supplied fields in source order, with the `num_uses < 0` check right after
the `num_uses` merge and the TTL ordering check right after the
`token_max_ttl` merge (before the `wrap_ttl` merge), then store. -/
def createUpdateCore (op : Operation) (st : Storage) (data : AppFieldData)
    (app0 : appStorageEntry) : HResult :=
  let app2 := mergeNumUses op (mergePolicies op app0 data) data
  if app2.NumUses < 0 then
    ⟨some (.error "num_uses cannot be negative"), none, st⟩
  else
    let app5 :=
      mergeTokenMaxTTL op (mergeTokenTTL op (mergeUserIDTTL op app2 data)
        data) data
    if app5.TokenMaxTTL > 0 ∧ app5.TokenTTL > app5.TokenMaxTTL then
      ⟨some (.error "token_ttl should not be greater than token_max_ttl"),
        none, st⟩
    else
      ⟨none, none, setAppEntry st data.app_name (mergeWrapTTL app5 data)⟩

/-- Handler `pathAppCreateUpdate` registers a new App or updates an existing
one: fetch the record (a zero-valued one if absent) and run the merge,
validation and store sequence of `createUpdateCore` on it. -/
def pathAppCreateUpdate (op : Operation) (st : Storage)
    (data : AppFieldData) : HResult :=
  if data.app_name = "" then
    ⟨some (.error "missing app_name"), none, st⟩
  else
    match appEntry st data.app_name with
    | .err e => ⟨none, some e, st⟩
    | .missing => createUpdateCore op st data zeroAppStorageEntry
    | .found e => createUpdateCore op st data e

/-- The `Data` map built by `pathAppRead` from a record: the `structs` map
of the entry after its duration fields were divided down to seconds
(Go `int64` division truncates toward zero, `Int.div`). -/
def appReadResponseData (app : appStorageEntry) : List (String × RespVal) :=
  [("policies", .strList app.Policies),
   ("num_uses", .int app.NumUses),
   ("userid_ttl", .int (Int.tdiv app.UserIDTTL 1000000000)),
   ("token_ttl", .int (Int.tdiv app.TokenTTL 1000000000)),
   ("token_max_ttl", .int (Int.tdiv app.TokenMaxTTL 1000000000)),
   ("wrap_ttl", .int (Int.tdiv app.WrapTTL 1000000000))]

/-- Handler `pathAppRead` reads the options set on the App; `(nil, nil)` when the
App does not exist. -/
def pathAppRead (st : Storage) (data : AppFieldData) : HResult :=
  if data.app_name = "" then
    ⟨some (.error "missing app_name"), none, st⟩
  else
    match appEntry st (lowerStr data.app_name) with
    | .err e => ⟨none, some e, st⟩
    | .missing => ⟨none, none, st⟩
    | .found app => ⟨some (.withData (appReadResponseData app)), none, st⟩

/-- Handler `pathAppDelete` removes the App from the storage. -/
def pathAppDelete (st : Storage) (data : AppFieldData) : HResult :=
  if data.app_name = "" then
    ⟨some (.error "missing app_name"), none, st⟩
  else
    ⟨none, none, storageDelete st (appKey data.app_name)⟩

/-! ## Per-field handlers

Each follows the same source shape: check `app_name`, fetch the record via
`appEntry(storage, strings.ToLower(appName))`, return `(nil, nil)` when the
App is missing, then act on the single field. -/

def pathAppPoliciesUpdate (st : Storage) (data : AppFieldData) : HResult :=
  if data.app_name = "" then
    ⟨some (.error "missing app_name"), none, st⟩
  else
    match appEntry st (lowerStr data.app_name) with
    | .err e => ⟨none, some e, st⟩
    | .missing => ⟨none, none, st⟩
    | .found app =>
      match data.policies with
      | some s =>
        ⟨none, none,
          setAppEntry st data.app_name { app with Policies := ParsePolicies s }⟩
      | none => ⟨some (.error "missing policies"), none, st⟩

def pathAppPoliciesRead (st : Storage) (data : AppFieldData) : HResult :=
  if data.app_name = "" then
    ⟨some (.error "missing app_name"), none, st⟩
  else
    match appEntry st (lowerStr data.app_name) with
    | .err e => ⟨none, some e, st⟩
    | .missing => ⟨none, none, st⟩
    | .found app =>
      ⟨some (.withData [("policies", .strList app.Policies)]), none, st⟩

def pathAppPoliciesDelete (st : Storage) (data : AppFieldData) : HResult :=
  if data.app_name = "" then
    ⟨some (.error "missing app_name"), none, st⟩
  else
    match appEntry st (lowerStr data.app_name) with
    | .err e => ⟨none, some e, st⟩
    | .missing => ⟨none, none, st⟩
    | .found app =>
      ⟨none, none,
        setAppEntry st data.app_name
          { app with Policies := zeroAppStorageEntry.Policies }⟩

def pathAppNumUsesUpdate (st : Storage) (data : AppFieldData) : HResult :=
  if data.app_name = "" then
    ⟨some (.error "missing app_name"), none, st⟩
  else
    match appEntry st (lowerStr data.app_name) with
    | .err e => ⟨none, some e, st⟩
    | .missing => ⟨none, none, st⟩
    | .found app =>
      match data.num_uses with
      | some n =>
        if n < 0 then ⟨some (.error "num_uses cannot be negative"), none, st⟩
        else ⟨none, none, setAppEntry st data.app_name { app with NumUses := n }⟩
      | none => ⟨some (.error "missing num_uses"), none, st⟩

def pathAppNumUsesRead (st : Storage) (data : AppFieldData) : HResult :=
  if data.app_name = "" then
    ⟨some (.error "missing app_name"), none, st⟩
  else
    match appEntry st (lowerStr data.app_name) with
    | .err e => ⟨none, some e, st⟩
    | .missing => ⟨none, none, st⟩
    | .found app =>
      ⟨some (.withData [("num_uses", .int app.NumUses)]), none, st⟩

def pathAppNumUsesDelete (st : Storage) (data : AppFieldData) : HResult :=
  if data.app_name = "" then
    ⟨some (.error "missing app_name"), none, st⟩
  else
    match appEntry st (lowerStr data.app_name) with
    | .err e => ⟨none, some e, st⟩
    | .missing => ⟨none, none, st⟩
    | .found app =>
      ⟨none, none,
        setAppEntry st data.app_name
          { app with NumUses := zeroAppStorageEntry.NumUses }⟩

def pathAppUserIDTTLUpdate (st : Storage) (data : AppFieldData) : HResult :=
  if data.app_name = "" then
    ⟨some (.error "missing app_name"), none, st⟩
  else
    match appEntry st (lowerStr data.app_name) with
    | .err e => ⟨none, some e, st⟩
    | .missing => ⟨none, none, st⟩
    | .found app =>
      match data.userid_ttl with
      | some n =>
        ⟨none, none,
          setAppEntry st data.app_name
            { app with UserIDTTL := durationFromSeconds n }⟩
      | none => ⟨some (.error "missing userid_ttl"), none, st⟩

def pathAppUserIDTTLRead (st : Storage) (data : AppFieldData) : HResult :=
  if data.app_name = "" then
    ⟨some (.error "missing app_name"), none, st⟩
  else
    match appEntry st (lowerStr data.app_name) with
    | .err e => ⟨none, some e, st⟩
    | .missing => ⟨none, none, st⟩
    | .found app =>
      ⟨some (.withData
        [("userid_ttl", .int (Int.tdiv app.UserIDTTL 1000000000))]), none, st⟩

def pathAppUserIDTTLDelete (st : Storage) (data : AppFieldData) : HResult :=
  if data.app_name = "" then
    ⟨some (.error "missing app_name"), none, st⟩
  else
    match appEntry st (lowerStr data.app_name) with
    | .err e => ⟨none, some e, st⟩
    | .missing => ⟨none, none, st⟩
    | .found app =>
      ⟨none, none,
        setAppEntry st data.app_name
          { app with UserIDTTL := zeroAppStorageEntry.UserIDTTL }⟩

def pathAppTokenTTLUpdate (st : Storage) (data : AppFieldData) : HResult :=
  if data.app_name = "" then
    ⟨some (.error "missing app_name"), none, st⟩
  else
    match appEntry st (lowerStr data.app_name) with
    | .err e => ⟨none, some e, st⟩
    | .missing => ⟨none, none, st⟩
    | .found app =>
      match data.token_ttl with
      | some n =>
        let app := { app with TokenTTL := durationFromSeconds n }
        if app.TokenMaxTTL > 0 ∧ app.TokenTTL > app.TokenMaxTTL then
          ⟨some (.error "token_ttl should not be greater than token_max_ttl"),
            none, st⟩
        else ⟨none, none, setAppEntry st data.app_name app⟩
      | none => ⟨some (.error "missing token_ttl"), none, st⟩

def pathAppTokenTTLRead (st : Storage) (data : AppFieldData) : HResult :=
  if data.app_name = "" then
    ⟨some (.error "missing app_name"), none, st⟩
  else
    match appEntry st (lowerStr data.app_name) with
    | .err e => ⟨none, some e, st⟩
    | .missing => ⟨none, none, st⟩
    | .found app =>
      ⟨some (.withData
        [("token_ttl", .int (Int.tdiv app.TokenTTL 1000000000))]), none, st⟩

def pathAppTokenTTLDelete (st : Storage) (data : AppFieldData) : HResult :=
  if data.app_name = "" then
    ⟨some (.error "missing app_name"), none, st⟩
  else
    match appEntry st (lowerStr data.app_name) with
    | .err e => ⟨none, some e, st⟩
    | .missing => ⟨none, none, st⟩
    | .found app =>
      ⟨none, none,
        setAppEntry st data.app_name
          { app with TokenTTL := zeroAppStorageEntry.TokenTTL }⟩

def pathAppTokenMaxTTLUpdate (st : Storage) (data : AppFieldData) : HResult :=
  if data.app_name = "" then
    ⟨some (.error "missing app_name"), none, st⟩
  else
    match appEntry st (lowerStr data.app_name) with
    | .err e => ⟨none, some e, st⟩
    | .missing => ⟨none, none, st⟩
    | .found app =>
      match data.token_max_ttl with
      | some n =>
        let app := { app with TokenMaxTTL := durationFromSeconds n }
        if app.TokenMaxTTL > 0 ∧ app.TokenTTL > app.TokenMaxTTL then
          ⟨some (.error
              "token_max_ttl should be greater than or equal to token_ttl"),
            none, st⟩
        else ⟨none, none, setAppEntry st data.app_name app⟩
      | none => ⟨some (.error "missing token_max_ttl"), none, st⟩

def pathAppTokenMaxTTLRead (st : Storage) (data : AppFieldData) : HResult :=
  if data.app_name = "" then
    ⟨some (.error "missing app_name"), none, st⟩
  else
    match appEntry st (lowerStr data.app_name) with
    | .err e => ⟨none, some e, st⟩
    | .missing => ⟨none, none, st⟩
    | .found app =>
      ⟨some (.withData
        [("token_max_ttl", .int (Int.tdiv app.TokenMaxTTL 1000000000))]),
        none, st⟩

def pathAppTokenMaxTTLDelete (st : Storage) (data : AppFieldData) : HResult :=
  if data.app_name = "" then
    ⟨some (.error "missing app_name"), none, st⟩
  else
    match appEntry st (lowerStr data.app_name) with
    | .err e => ⟨none, some e, st⟩
    | .missing => ⟨none, none, st⟩
    | .found app =>
      ⟨none, none,
        setAppEntry st data.app_name
          { app with TokenMaxTTL := zeroAppStorageEntry.TokenMaxTTL }⟩

def pathAppWrapTTLUpdate (st : Storage) (data : AppFieldData) : HResult :=
  if data.app_name = "" then
    ⟨some (.error "missing app_name"), none, st⟩
  else
    match appEntry st (lowerStr data.app_name) with
    | .err e => ⟨none, some e, st⟩
    | .missing => ⟨none, none, st⟩
    | .found app =>
      match data.wrap_ttl with
      | some n =>
        ⟨none, none,
          setAppEntry st data.app_name
            { app with WrapTTL := durationFromSeconds n }⟩
      | none => ⟨some (.error "missing wrap_ttl"), none, st⟩

def pathAppWrapTTLRead (st : Storage) (data : AppFieldData) : HResult :=
  if data.app_name = "" then
    ⟨some (.error "missing app_name"), none, st⟩
  else
    match appEntry st (lowerStr data.app_name) with
    | .err e => ⟨none, some e, st⟩
    | .missing => ⟨none, none, st⟩
    | .found app =>
      ⟨some (.withData
        [("wrap_ttl", .int (Int.tdiv app.WrapTTL 1000000000))]), none, st⟩

def pathAppWrapTTLDelete (st : Storage) (data : AppFieldData) : HResult :=
  if data.app_name = "" then
    ⟨some (.error "missing app_name"), none, st⟩
  else
    match appEntry st (lowerStr data.app_name) with
    | .err e => ⟨none, some e, st⟩
    | .missing => ⟨none, none, st⟩
    | .found app =>
      ⟨none, none,
        setAppEntry st data.app_name
          { app with WrapTTL := zeroAppStorageEntry.WrapTTL }⟩

/-! ## Credential issuance -/

/-- The selector-kind tag for Apps (`selectorTypeApp`, declared outside
src/); the spec namespaces UserID records by kind. -/
def selectorTypeApp : String := "app"

/-- The storage key of a UserID entry: namespaced by selector kind, then the
salted hash of the UserID value (never the raw value). -/
def userIDEntryKey (hash : String → String) (selectorType userID : String) :
    String :=
  "userid/" ++ selectorType ++ "/" ++ hash userID

/-- Result of `registerUserIDEntry`: the updated storage or a Go error. -/
inductive RegisterResult where
  | err (msg : String)
  | ok (st : Storage)
deriving Repr, DecidableEq

/-- Modelled from the spec: `registerUserIDEntry` (not under src/; only its
caller `handleAppCredsCommon` is).  Per §4.2, it writes the entry keyed by
the salted hash of the UserID value under the selector kind's namespace,
recording the selector back-reference, and fails with a conflict error if a
live entry with the same hash already exists.  The salted hasher is the
external collaborator `hash`. -/
def registerUserIDEntry (hash : String → String) (st : Storage)
    (selectorType selectorName userID : String)
    (entry : userIDStorageEntry) : RegisterResult :=
  let key := userIDEntryKey hash selectorType userID
  match storageGet st key with
  | some _ => .err "user ID entry already exists"
  | none =>
    .ok (storagePut st key
      (.userID { entry with SelectorType := selectorType
                            SelectorName := selectorName }))

/-- Handler core `handleAppCredsCommon`: look up the App (by lower-cased name), register a
UserID entry copying `NumUses` and `UserIDTTL` from the App's current
config, and return the UserID in the response payload unless the UserID was
client-specified. -/
def handleAppCredsCommon (hash : String → String) (st : Storage)
    (data : AppFieldData) (specified : Bool) : HResult :=
  if data.app_name = "" then
    ⟨some (.error "missing app_name"), none, st⟩
  else
    let userID := data.user_id.getD ""
    if userID = "" then ⟨some (.error "missing user_id"), none, st⟩
    else
      match appEntry st (lowerStr data.app_name) with
      | .err e => ⟨none, some e, st⟩
      | .missing =>
        ⟨some (.error ("app " ++ data.app_name ++ " does not exist")), none, st⟩
      | .found app =>
        match registerUserIDEntry hash st selectorTypeApp data.app_name userID
            { SelectorType := "", SelectorName := ""
              NumUses := app.NumUses, UserIDTTL := app.UserIDTTL } with
        | .err e => ⟨none, some ("failed to store user ID: " ++ e), st⟩
        | .ok st' =>
          if specified then ⟨none, none, st'⟩
          else ⟨some (.withData [("user_id", .str userID)]), none, st'⟩

/-- Handler `pathAppCredsRead`: generate a UserID server-side (the generated UUID is
passed in as `genUUID`), force it into the request's raw data, and delegate
with `specified = false`. -/
def pathAppCredsRead (hash : String → String) (genUUID : String)
    (st : Storage) (data : AppFieldData) : HResult :=
  handleAppCredsCommon hash st { data with user_id := some genUUID } false

/-- Handler `pathAppCredsSpecificUpdate`: delegate with the caller-supplied UserID
and `specified = true`. -/
def pathAppCredsSpecificUpdate (hash : String → String) (st : Storage)
    (data : AppFieldData) : HResult :=
  handleAppCredsCommon hash st data true

/-! ## Concurrency model for the per-field update handlers

In the source, a field-level update handler touches storage in exactly two
critical sections: `appEntry` takes the shared `appLock` only for the read
(`RLock`/`RUnlock` inside `appEntry`), and `setAppEntry` takes the
exclusive `appLock` only for the write.  No lock is held between the two,
so concurrently running handlers may interleave at that point.  We model a
running field-update handler as a thread taking two atomic steps — the
locked read and the locked write — exactly the granularity the locks
enforce. -/

/-- A field-level update in flight: the App name it addresses and the
modification it applies to the snapshot it read (e.g. set `NumUses`). -/
structure FieldUpdate where
  appName : String
  apply : appStorageEntry → appStorageEntry

/-- A thread executing a field update: its program, the snapshot captured
by its read phase (`none` until the read ran), and whether it finished. -/
structure ThreadCfg where
  upd : FieldUpdate
  snap : Option EntryResult := none
  done : Bool := false

/-- A thread that has not run yet. -/
def initThread (u : FieldUpdate) : ThreadCfg := { upd := u }

/-- One atomic step of a field-update thread: the read critical section
(`appEntry(storage, strings.ToLower(appName))` under the shared lock), then
the write critical section (`setAppEntry` of the modified snapshot under the
exclusive lock); a thread whose read found no record (or an error) stops
without writing, as the handlers do. -/
def threadStep (st : Storage) (t : ThreadCfg) : Storage × ThreadCfg :=
  match t.snap with
  | none => (st, { t with snap := some (appEntry st (lowerStr t.upd.appName)) })
  | some (.found app) =>
    if t.done then (st, t)
    else (setAppEntry st t.upd.appName (t.upd.apply app), { t with done := true })
  | some _ => (st, { t with done := true })

/-- Run two threads under a schedule: `true` steps the first thread,
`false` the second. -/
def runSched (st : Storage) (t1 t2 : ThreadCfg) :
    List Bool → Storage × ThreadCfg × ThreadCfg
  | [] => (st, t1, t2)
  | b :: rest =>
    if b then
      let s := threadStep st t1
      runSched s.1 s.2 t2 rest
    else
      let s := threadStep st t2
      runSched s.1 t1 s.2 rest

/-- The modification `pathAppNumUsesUpdate` applies to its snapshot. -/
def numUsesFieldUpdate (appName : String) (n : Int) : FieldUpdate :=
  ⟨appName, fun app => { app with NumUses := n }⟩

/-- The modification `pathAppUserIDTTLUpdate` applies to its snapshot. -/
def userIDTTLFieldUpdate (appName : String) (n : Int) : FieldUpdate :=
  ⟨appName, fun app => { app with UserIDTTL := durationFromSeconds n }⟩

/-! ## TTL ordering invariant -/

/-- The spec's record invariant: if `tokenMaxTTL > 0` then
`tokenTTL ≤ tokenMaxTTL`. -/
def TTLInvariant (e : appStorageEntry) : Prop :=
  0 < e.TokenMaxTTL → e.TokenTTL ≤ e.TokenMaxTTL

instance (e : appStorageEntry) : Decidable (TTLInvariant e) := by
  unfold TTLInvariant; infer_instance

/-- The invariant lifted to a stored value (UserID entries are
unconstrained). -/
def ValueInv : StorageValue → Prop
  | .app e => TTLInvariant e
  | .userID _ => True

instance : DecidablePred ValueInv := fun v =>
  match v with
  | .app e => inferInstanceAs (Decidable (TTLInvariant e))
  | .userID _ => inferInstanceAs (Decidable True)

/-- Every App record held in the storage satisfies the TTL ordering
invariant. -/
def StorageInv (st : Storage) : Prop := ∀ p ∈ st, ValueInv p.2

instance (st : Storage) : Decidable (StorageInv st) :=
  List.decidableBAll _ st

/-! ## Storage lemmas -/

theorem storageGet_storagePut_self (st : Storage) (k : String)
    (v : StorageValue) : storageGet (storagePut st k v) k = some v := by
  simp [storageGet, storagePut, List.find?_cons_of_pos]

theorem storageGet_storagePut_ne (st : Storage) {k k' : String}
    (v : StorageValue) (h : k' ≠ k) :
    storageGet (storagePut st k v) k' = storageGet st k' := by
  unfold storageGet storagePut
  rw [List.find?_cons_of_neg _ (by simpa using Ne.symm h)]
  congr 1
  induction st with
  | nil => rfl
  | cons a l ih =>
    by_cases ha : a.1 = k
    · rw [List.filter_cons_of_neg (by simpa using ha),
        List.find?_cons_of_neg _ (by simpa using ha ▸ Ne.symm h)]
      exact ih
    · rw [List.filter_cons_of_pos (by simpa using ha)]
      by_cases ha' : a.1 = k'
      · rw [List.find?_cons_of_pos _ (by simpa using ha'),
          List.find?_cons_of_pos _ (by simpa using ha')]
      · rw [List.find?_cons_of_neg _ (by simpa using ha'),
          List.find?_cons_of_neg _ (by simpa using ha')]
        exact ih

theorem storageGet_mem {st : Storage} {k : String} {v : StorageValue}
    (hg : storageGet st k = some v) : ∃ p ∈ st, p.2 = v := by
  unfold storageGet at hg
  cases hf : st.find? (fun p => p.1 == k) with
  | none => rw [hf] at hg; simp at hg
  | some p =>
    rw [hf] at hg
    simp only [Option.map_some'] at hg
    exact ⟨p, List.mem_of_find?_eq_some hf, Option.some_injective _ hg⟩

theorem storageGet_inv {st : Storage} (h : StorageInv st) {k : String}
    {v : StorageValue} (hg : storageGet st k = some v) : ValueInv v := by
  obtain ⟨p, hp, hpv⟩ := storageGet_mem hg
  exact hpv ▸ h p hp

theorem storageInv_put {st : Storage} (h : StorageInv st) {k : String}
    {v : StorageValue} (hv : ValueInv v) : StorageInv (storagePut st k v) := by
  intro p hp
  rcases List.mem_cons.mp hp with rfl | hp'
  · exact hv
  · exact h p (List.mem_of_mem_filter hp')

theorem storageInv_delete {st : Storage} (h : StorageInv st) (k : String) :
    StorageInv (storageDelete st k) := by
  intro p hp
  exact h p (List.mem_of_mem_filter hp)

theorem storageInv_setAppEntry {st : Storage} (h : StorageInv st)
    (n : String) {e : appStorageEntry} (he : TTLInvariant e) :
    StorageInv (setAppEntry st n e) :=
  storageInv_put h he

/-! ## Lower-casing lemmas -/

theorem char_toNat_ofNat_valid (m : Nat) (h : Nat.isValidChar m) :
    (Char.ofNat m).toNat = m := by
  rw [Char.ofNat, dif_pos h]
  rfl

theorem char_toLower_toLower (c : Char) : c.toLower.toLower = c.toLower := by
  unfold Char.toLower
  by_cases h : c.toNat ≥ 65 ∧ c.toNat ≤ 90
  · rw [if_pos h]
    have hv : Nat.isValidChar (c.toNat + 32) := Or.inl (by omega)
    have ht : (Char.ofNat (c.toNat + 32)).toNat = c.toNat + 32 :=
      char_toNat_ofNat_valid _ hv
    rw [if_neg]
    rw [ht]
    omega
  · rw [if_neg h, if_neg h]

theorem lowerStr_idem (s : String) : lowerStr (lowerStr s) = lowerStr s := by
  unfold lowerStr
  congr 1
  show (s.data.map Char.toLower).map Char.toLower = s.data.map Char.toLower
  rw [List.map_map]
  exact List.map_congr_left (fun a _ => char_toLower_toLower a)

theorem lowerStr_eq_empty_iff (s : String) : lowerStr s = "" ↔ s = "" := by
  constructor
  · intro h
    have h2 : (lowerStr s).data = String.data "" := congrArg String.data h
    have h3 : s.data.map Char.toLower = [] := h2
    apply String.ext
    simpa using h3
  · intro h
    subst h
    rfl

/-- No UserID entry key collides with an App config key: the two
namespaces carry different prefixes. -/
theorem userIDKey_ne_appKey (a b : String) :
    ("userid/" ++ a) ≠ ("app/" ++ b) := by
  intro h
  have h2 := congrArg String.data h
  rw [String.data_append, String.data_append] at h2
  have hu : String.data "userid/" = ['u', 's', 'e', 'r', 'i', 'd', '/'] := rfl
  have ha : String.data "app/" = ['a', 'p', 'p', '/'] := rfl
  rw [hu, ha] at h2
  simp at h2

theorem userIDEntryKey_ne_appKey (hash : String → String)
    (ty uid n : String) : userIDEntryKey hash ty uid ≠ appKey n := by
  unfold userIDEntryKey appKey
  have h1 : "userid/" ++ ty ++ "/" ++ hash uid =
      "userid/" ++ (ty ++ "/" ++ hash uid) := by
    simp [String.append_assoc]
  rw [h1]
  exact userIDKey_ne_appKey _ _

/-! ## Lemmas about `appEntry` and the merge steps -/

theorem appEntry_eq_of_ne {st : Storage} {n : String} (h : n ≠ "") :
    appEntry st n =
      (match storageGet st (appKey n) with
        | none => EntryResult.missing
        | some (.app e) => EntryResult.found e
        | some (.userID _) => EntryResult.err "failed to decode App entry") := by
  unfold appEntry
  rw [if_neg h]

/-- The per-field handlers call `appEntry` with the already lower-cased
name; idempotence of lower-casing collapses the double application, so the
lookup still addresses `appKey n`. -/
theorem appEntry_lowerStr {st : Storage} {n : String} (h : n ≠ "") :
    appEntry st (lowerStr n) =
      (match storageGet st (appKey n) with
        | none => EntryResult.missing
        | some (.app e) => EntryResult.found e
        | some (.userID _) => EntryResult.err "failed to decode App entry") := by
  unfold appEntry
  rw [if_neg (by simpa [lowerStr_eq_empty_iff] using h)]
  unfold appKey
  rw [lowerStr_idem]

theorem appEntry_found_get {st : Storage} {n : String} {e : appStorageEntry}
    (h : appEntry st n = .found e) :
    storageGet st (appKey n) = some (.app e) := by
  unfold appEntry at h
  by_cases hn : n = ""
  · rw [if_pos hn] at h
    exact absurd h (by simp)
  · rw [if_neg hn] at h
    cases hg : storageGet st (appKey n) with
    | none => rw [hg] at h; exact absurd h (by simp)
    | some v =>
      cases v with
      | app e2 =>
        rw [hg] at h
        simp only [EntryResult.found.injEq] at h
        rw [h]
      | userID u => rw [hg] at h; exact absurd h (by simp)

theorem mergeWrapTTL_NumUses (app : appStorageEntry) (d : AppFieldData) :
    (mergeWrapTTL app d).NumUses = app.NumUses := by
  unfold mergeWrapTTL; cases d.wrap_ttl <;> rfl

theorem mergeWrapTTL_TokenTTL (app : appStorageEntry) (d : AppFieldData) :
    (mergeWrapTTL app d).TokenTTL = app.TokenTTL := by
  unfold mergeWrapTTL; cases d.wrap_ttl <;> rfl

theorem mergeWrapTTL_TokenMaxTTL (app : appStorageEntry) (d : AppFieldData) :
    (mergeWrapTTL app d).TokenMaxTTL = app.TokenMaxTTL := by
  unfold mergeWrapTTL; cases d.wrap_ttl <;> rfl

theorem mergeUserIDTTL_NumUses (op : Operation) (app : appStorageEntry)
    (d : AppFieldData) : (mergeUserIDTTL op app d).NumUses = app.NumUses := by
  unfold mergeUserIDTTL
  cases d.userid_ttl <;> cases op <;> simp

theorem mergeTokenTTL_NumUses (op : Operation) (app : appStorageEntry)
    (d : AppFieldData) : (mergeTokenTTL op app d).NumUses = app.NumUses := by
  unfold mergeTokenTTL
  cases d.token_ttl <;> cases op <;> simp

theorem mergeTokenMaxTTL_NumUses (op : Operation) (app : appStorageEntry)
    (d : AppFieldData) :
    (mergeTokenMaxTTL op app d).NumUses = app.NumUses := by
  unfold mergeTokenMaxTTL
  cases d.token_max_ttl <;> cases op <;> simp

theorem mergedApp_NumUses (op : Operation) (app : appStorageEntry)
    (d : AppFieldData) :
    (mergedApp op app d).NumUses =
      (mergeNumUses op (mergePolicies op app d) d).NumUses := by
  unfold mergedApp
  rw [mergeWrapTTL_NumUses, mergeTokenMaxTTL_NumUses, mergeTokenTTL_NumUses,
    mergeUserIDTTL_NumUses]

theorem mergedApp_TokenTTL (op : Operation) (app : appStorageEntry)
    (d : AppFieldData) :
    (mergedApp op app d).TokenTTL =
      (mergeTokenMaxTTL op (mergeTokenTTL op (mergeUserIDTTL op
        (mergeNumUses op (mergePolicies op app d) d) d) d) d).TokenTTL := by
  unfold mergedApp
  rw [mergeWrapTTL_TokenTTL]

theorem mergedApp_TokenMaxTTL (op : Operation) (app : appStorageEntry)
    (d : AppFieldData) :
    (mergedApp op app d).TokenMaxTTL =
      (mergeTokenMaxTTL op (mergeTokenTTL op (mergeUserIDTTL op
        (mergeNumUses op (mergePolicies op app d) d) d) d) d).TokenMaxTTL := by
  unfold mergedApp
  rw [mergeWrapTTL_TokenMaxTTL]

set_option maxHeartbeats 1000000 in
/-- Closed form of the full merge: each field of the merged record is its
supplied value, or (on create) its default, or (on update) the prior
value; `wrap_ttl` is never defaulted. -/
theorem mergedApp_eq (op : Operation) (app : appStorageEntry)
    (d : AppFieldData) :
    mergedApp op app d =
      { Policies := match d.policies with
          | some s => ParsePolicies s
          | none =>
            if op = .create then ParsePolicies "default" else app.Policies
        NumUses := match d.num_uses with
          | some n => n
          | none => if op = .create then 0 else app.NumUses
        UserIDTTL := match d.userid_ttl with
          | some n => durationFromSeconds n
          | none =>
            if op = .create then durationFromSeconds 0 else app.UserIDTTL
        TokenTTL := match d.token_ttl with
          | some n => durationFromSeconds n
          | none =>
            if op = .create then durationFromSeconds 0 else app.TokenTTL
        TokenMaxTTL := match d.token_max_ttl with
          | some n => durationFromSeconds n
          | none =>
            if op = .create then durationFromSeconds 0 else app.TokenMaxTTL
        WrapTTL := match d.wrap_ttl with
          | some n => durationFromSeconds n
          | none => app.WrapTTL } := by
  obtain ⟨nm, pol, nu, ut, tt, tmt, wt, uid⟩ := d
  unfold mergedApp mergeWrapTTL mergeTokenMaxTTL mergeTokenTTL mergeUserIDTTL
    mergeNumUses mergePolicies
  dsimp only
  cases op <;> cases pol <;> cases nu <;> cases ut <;> cases tt <;>
    cases tmt <;> cases wt <;> rfl

/-- Reformulation of `createUpdateCore` with both validation checks read off
the fully merged record (the later merges do not change the checked
fields). -/
theorem createUpdateCore_eq (op : Operation) (st : Storage)
    (d : AppFieldData) (app0 : appStorageEntry) :
    createUpdateCore op st d app0 =
      (if (mergedApp op app0 d).NumUses < 0 then
        ⟨some (.error "num_uses cannot be negative"), none, st⟩
      else if (mergedApp op app0 d).TokenMaxTTL > 0 ∧
          (mergedApp op app0 d).TokenTTL > (mergedApp op app0 d).TokenMaxTTL
          then
        ⟨some (.error "token_ttl should not be greater than token_max_ttl"),
          none, st⟩
      else ⟨none, none, setAppEntry st d.app_name (mergedApp op app0 d)⟩) := by
  rw [mergedApp_NumUses, mergedApp_TokenTTL, mergedApp_TokenMaxTTL]
  rfl

/-- Characterization of `pathAppCreateUpdate` on a well-formed request: the
request is rejected without a write when the merged record has negative
`NumUses` or violates the TTL ordering; otherwise the merged record is
stored under the App's key. -/
theorem pathAppCreateUpdate_eq (op : Operation) (st : Storage)
    (d : AppFieldData) (app0 : appStorageEntry)
    (hname : d.app_name ≠ "")
    (happ : appEntry st d.app_name = .found app0 ∨
      (appEntry st d.app_name = .missing ∧ app0 = zeroAppStorageEntry)) :
    pathAppCreateUpdate op st d =
      (if (mergedApp op app0 d).NumUses < 0 then
        ⟨some (.error "num_uses cannot be negative"), none, st⟩
      else if (mergedApp op app0 d).TokenMaxTTL > 0 ∧
          (mergedApp op app0 d).TokenTTL > (mergedApp op app0 d).TokenMaxTTL
          then
        ⟨some (.error "token_ttl should not be greater than token_max_ttl"),
          none, st⟩
      else ⟨none, none, setAppEntry st d.app_name (mergedApp op app0 d)⟩) := by
  have hcore : pathAppCreateUpdate op st d = createUpdateCore op st d app0 := by
    unfold pathAppCreateUpdate
    rw [if_neg hname]
    rcases happ with h | ⟨h, h0⟩
    · rw [h]
    · rw [h, h0]
  rw [hcore, createUpdateCore_eq]

/-! ## Store-effect case analyses for the mutating App handlers -/

theorem pathAppPoliciesUpdate_store_cases (st : Storage) (d : AppFieldData) :
    (pathAppPoliciesUpdate st d).store = st ∨
    ∃ n e, (pathAppPoliciesUpdate st d).store = setAppEntry st n e ∧
      (StorageInv st → TTLInvariant e) := by
  unfold pathAppPoliciesUpdate
  split
  · exact Or.inl rfl
  · split
    · exact Or.inl rfl
    · exact Or.inl rfl
    · rename_i app heq
      split
      · exact Or.inr ⟨d.app_name, _, rfl,
          fun hinv => storageGet_inv hinv (appEntry_found_get heq)⟩
      · exact Or.inl rfl

theorem pathAppUserIDTTLUpdate_store_cases (st : Storage) (d : AppFieldData) :
    (pathAppUserIDTTLUpdate st d).store = st ∨
    ∃ n e, (pathAppUserIDTTLUpdate st d).store = setAppEntry st n e ∧
      (StorageInv st → TTLInvariant e) := by
  unfold pathAppUserIDTTLUpdate
  split
  · exact Or.inl rfl
  · split
    · exact Or.inl rfl
    · exact Or.inl rfl
    · rename_i app heq
      split
      · exact Or.inr ⟨d.app_name, _, rfl,
          fun hinv => storageGet_inv hinv (appEntry_found_get heq)⟩
      · exact Or.inl rfl

theorem pathAppWrapTTLUpdate_store_cases (st : Storage) (d : AppFieldData) :
    (pathAppWrapTTLUpdate st d).store = st ∨
    ∃ n e, (pathAppWrapTTLUpdate st d).store = setAppEntry st n e ∧
      (StorageInv st → TTLInvariant e) := by
  unfold pathAppWrapTTLUpdate
  split
  · exact Or.inl rfl
  · split
    · exact Or.inl rfl
    · exact Or.inl rfl
    · rename_i app heq
      split
      · exact Or.inr ⟨d.app_name, _, rfl,
          fun hinv => storageGet_inv hinv (appEntry_found_get heq)⟩
      · exact Or.inl rfl

theorem pathAppNumUsesUpdate_store_cases (st : Storage) (d : AppFieldData) :
    (pathAppNumUsesUpdate st d).store = st ∨
    ∃ n e, (pathAppNumUsesUpdate st d).store = setAppEntry st n e ∧
      (StorageInv st → TTLInvariant e) := by
  unfold pathAppNumUsesUpdate
  split
  · exact Or.inl rfl
  · split
    · exact Or.inl rfl
    · exact Or.inl rfl
    · rename_i app heq
      split
      · split
        · exact Or.inl rfl
        · exact Or.inr ⟨d.app_name, _, rfl,
            fun hinv => storageGet_inv hinv (appEntry_found_get heq)⟩
      · exact Or.inl rfl

theorem pathAppTokenTTLUpdate_store_cases (st : Storage) (d : AppFieldData) :
    (pathAppTokenTTLUpdate st d).store = st ∨
    ∃ n e, (pathAppTokenTTLUpdate st d).store = setAppEntry st n e ∧
      (StorageInv st → TTLInvariant e) := by
  unfold pathAppTokenTTLUpdate
  split
  · exact Or.inl rfl
  · split
    · exact Or.inl rfl
    · exact Or.inl rfl
    · rename_i app heq
      split
      · dsimp only
        split
        · exact Or.inl rfl
        · rename_i hguard
          refine Or.inr ⟨d.app_name, _, rfl, fun _ => ?_⟩
          push_neg at hguard
          exact hguard
      · exact Or.inl rfl

theorem pathAppTokenMaxTTLUpdate_store_cases (st : Storage) (d : AppFieldData) :
    (pathAppTokenMaxTTLUpdate st d).store = st ∨
    ∃ n e, (pathAppTokenMaxTTLUpdate st d).store = setAppEntry st n e ∧
      (StorageInv st → TTLInvariant e) := by
  unfold pathAppTokenMaxTTLUpdate
  split
  · exact Or.inl rfl
  · split
    · exact Or.inl rfl
    · exact Or.inl rfl
    · rename_i app heq
      split
      · dsimp only
        split
        · exact Or.inl rfl
        · rename_i hguard
          refine Or.inr ⟨d.app_name, _, rfl, fun _ => ?_⟩
          push_neg at hguard
          exact hguard
      · exact Or.inl rfl

theorem pathAppPoliciesDelete_store_cases (st : Storage) (d : AppFieldData) :
    (pathAppPoliciesDelete st d).store = st ∨
    ∃ n e, (pathAppPoliciesDelete st d).store = setAppEntry st n e ∧
      (StorageInv st → TTLInvariant e) := by
  unfold pathAppPoliciesDelete
  split
  · exact Or.inl rfl
  · split
    · exact Or.inl rfl
    · exact Or.inl rfl
    · rename_i app heq
      exact Or.inr ⟨d.app_name, _, rfl, fun hinv => storageGet_inv hinv (appEntry_found_get heq)⟩

theorem pathAppNumUsesDelete_store_cases (st : Storage) (d : AppFieldData) :
    (pathAppNumUsesDelete st d).store = st ∨
    ∃ n e, (pathAppNumUsesDelete st d).store = setAppEntry st n e ∧
      (StorageInv st → TTLInvariant e) := by
  unfold pathAppNumUsesDelete
  split
  · exact Or.inl rfl
  · split
    · exact Or.inl rfl
    · exact Or.inl rfl
    · rename_i app heq
      exact Or.inr ⟨d.app_name, _, rfl, fun hinv => storageGet_inv hinv (appEntry_found_get heq)⟩

theorem pathAppUserIDTTLDelete_store_cases (st : Storage) (d : AppFieldData) :
    (pathAppUserIDTTLDelete st d).store = st ∨
    ∃ n e, (pathAppUserIDTTLDelete st d).store = setAppEntry st n e ∧
      (StorageInv st → TTLInvariant e) := by
  unfold pathAppUserIDTTLDelete
  split
  · exact Or.inl rfl
  · split
    · exact Or.inl rfl
    · exact Or.inl rfl
    · rename_i app heq
      exact Or.inr ⟨d.app_name, _, rfl, fun hinv => storageGet_inv hinv (appEntry_found_get heq)⟩

theorem pathAppWrapTTLDelete_store_cases (st : Storage) (d : AppFieldData) :
    (pathAppWrapTTLDelete st d).store = st ∨
    ∃ n e, (pathAppWrapTTLDelete st d).store = setAppEntry st n e ∧
      (StorageInv st → TTLInvariant e) := by
  unfold pathAppWrapTTLDelete
  split
  · exact Or.inl rfl
  · split
    · exact Or.inl rfl
    · exact Or.inl rfl
    · rename_i app heq
      exact Or.inr ⟨d.app_name, _, rfl, fun hinv => storageGet_inv hinv (appEntry_found_get heq)⟩

theorem pathAppTokenTTLDelete_store_cases (st : Storage) (d : AppFieldData) :
    (pathAppTokenTTLDelete st d).store = st ∨
    ∃ n e, (pathAppTokenTTLDelete st d).store = setAppEntry st n e ∧
      (StorageInv st → TTLInvariant e) := by
  unfold pathAppTokenTTLDelete
  split
  · exact Or.inl rfl
  · split
    · exact Or.inl rfl
    · exact Or.inl rfl
    · rename_i app heq
      exact Or.inr ⟨d.app_name, _, rfl, fun _ hmax => le_of_lt hmax⟩

theorem pathAppTokenMaxTTLDelete_store_cases (st : Storage) (d : AppFieldData) :
    (pathAppTokenMaxTTLDelete st d).store = st ∨
    ∃ n e, (pathAppTokenMaxTTLDelete st d).store = setAppEntry st n e ∧
      (StorageInv st → TTLInvariant e) := by
  unfold pathAppTokenMaxTTLDelete
  split
  · exact Or.inl rfl
  · split
    · exact Or.inl rfl
    · exact Or.inl rfl
    · rename_i app heq
      exact Or.inr ⟨d.app_name, _, rfl, fun _ hmax => absurd hmax (lt_irrefl 0)⟩

theorem pathAppCreateUpdate_store_cases (op : Operation) (st : Storage)
    (d : AppFieldData) :
    (pathAppCreateUpdate op st d).store = st ∨
    ∃ n e, (pathAppCreateUpdate op st d).store = setAppEntry st n e ∧
      (StorageInv st → TTLInvariant e) := by
  unfold pathAppCreateUpdate createUpdateCore
  split
  · exact Or.inl rfl
  · split
    · exact Or.inl rfl
    all_goals
      dsimp only
      split
      · exact Or.inl rfl
      · split
        · exact Or.inl rfl
        · rename_i hguard
          refine Or.inr ⟨d.app_name, _, rfl, fun _ => ?_⟩
          intro hmax
          rw [mergeWrapTTL_TokenMaxTTL] at hmax
          rw [mergeWrapTTL_TokenTTL, mergeWrapTTL_TokenMaxTTL]
          push_neg at hguard
          exact hguard hmax

theorem storageGet_storageDelete_ne (st : Storage) {k k' : String}
    (h : k' ≠ k) : storageGet (storageDelete st k) k' = storageGet st k' := by
  unfold storageGet storageDelete
  congr 1
  induction st with
  | nil => rfl
  | cons a l ih =>
    by_cases ha : a.1 = k
    · rw [List.filter_cons_of_neg (by simpa using ha),
        List.find?_cons_of_neg _ (by simpa using ha ▸ Ne.symm h)]
      exact ih
    · rw [List.filter_cons_of_pos (by simpa using ha)]
      by_cases ha2 : a.1 = k'
      · rw [List.find?_cons_of_pos _ (by simpa using ha2),
          List.find?_cons_of_pos _ (by simpa using ha2)]
      · rw [List.find?_cons_of_neg _ (by simpa using ha2),
          List.find?_cons_of_neg _ (by simpa using ha2)]
        exact ih

/-- A handler whose store effect is covered by a store-cases lemma
preserves the TTL ordering invariant. -/
theorem storageInv_of_cases {st r : Storage} (hinv : StorageInv st)
    (h : r = st ∨ ∃ n e, r = setAppEntry st n e ∧
      (StorageInv st → TTLInvariant e)) : StorageInv r := by
  rcases h with rfl | ⟨n, e, heq, hi⟩
  · exact hinv
  · rw [heq]
    exact storageInv_setAppEntry hinv n (hi hinv)

/-- A handler whose store effect is covered by a store-cases lemma never
touches a UserID entry key. -/
theorem storageGet_userIDKey_of_cases {st r : Storage}
    (h : r = st ∨ ∃ n e, r = setAppEntry st n e ∧
      (StorageInv st → TTLInvariant e))
    (hash : String → String) (ty uid : String) :
    storageGet r (userIDEntryKey hash ty uid) =
      storageGet st (userIDEntryKey hash ty uid) := by
  rcases h with rfl | ⟨n, e, heq, _⟩
  · rfl
  · rw [heq]
    unfold setAppEntry
    exact storageGet_storagePut_ne st _ (userIDEntryKey_ne_appKey hash ty uid n)

theorem pathAppDelete_inv {st : Storage} (hinv : StorageInv st)
    (d : AppFieldData) : StorageInv (pathAppDelete st d).store := by
  unfold pathAppDelete
  split
  · exact hinv
  · exact storageInv_delete hinv _

/-! ## The claims -/

/-- C1: for every App configuration state and every create/update operation
(whole-record create/update, the `token_ttl` and `token_max_ttl` field
updates, and the per-field deletes — and in fact every other App mutation),
the stored records keep satisfying the invariant: if `tokenMaxTTL > 0` then
`tokenTTL ≤ tokenMaxTTL`; and any create/update request whose merged result
would violate the invariant is rejected with an error response and no
write. -/
theorem claim_C1_ttl_ordering_invariant (op : Operation) (st : Storage)
    (d : AppFieldData) (app0 : appStorageEntry) (hinv : StorageInv st) :
    (StorageInv (pathAppCreateUpdate op st d).store ∧
     StorageInv (pathAppTokenTTLUpdate st d).store ∧
     StorageInv (pathAppTokenMaxTTLUpdate st d).store ∧
     StorageInv (pathAppPoliciesUpdate st d).store ∧
     StorageInv (pathAppNumUsesUpdate st d).store ∧
     StorageInv (pathAppUserIDTTLUpdate st d).store ∧
     StorageInv (pathAppWrapTTLUpdate st d).store ∧
     StorageInv (pathAppPoliciesDelete st d).store ∧
     StorageInv (pathAppNumUsesDelete st d).store ∧
     StorageInv (pathAppUserIDTTLDelete st d).store ∧
     StorageInv (pathAppTokenTTLDelete st d).store ∧
     StorageInv (pathAppTokenMaxTTLDelete st d).store ∧
     StorageInv (pathAppWrapTTLDelete st d).store ∧
     StorageInv (pathAppDelete st d).store) ∧
    (d.app_name ≠ "" →
     (appEntry st d.app_name = .found app0 ∨
       (appEntry st d.app_name = .missing ∧ app0 = zeroAppStorageEntry)) →
     (mergedApp op app0 d).TokenMaxTTL > 0 →
     (mergedApp op app0 d).TokenTTL > (mergedApp op app0 d).TokenMaxTTL →
     ∃ msg, pathAppCreateUpdate op st d = ⟨some (.error msg), none, st⟩) := by
  constructor
  · exact ⟨storageInv_of_cases hinv (pathAppCreateUpdate_store_cases op st d),
      storageInv_of_cases hinv (pathAppTokenTTLUpdate_store_cases st d),
      storageInv_of_cases hinv (pathAppTokenMaxTTLUpdate_store_cases st d),
      storageInv_of_cases hinv (pathAppPoliciesUpdate_store_cases st d),
      storageInv_of_cases hinv (pathAppNumUsesUpdate_store_cases st d),
      storageInv_of_cases hinv (pathAppUserIDTTLUpdate_store_cases st d),
      storageInv_of_cases hinv (pathAppWrapTTLUpdate_store_cases st d),
      storageInv_of_cases hinv (pathAppPoliciesDelete_store_cases st d),
      storageInv_of_cases hinv (pathAppNumUsesDelete_store_cases st d),
      storageInv_of_cases hinv (pathAppUserIDTTLDelete_store_cases st d),
      storageInv_of_cases hinv (pathAppTokenTTLDelete_store_cases st d),
      storageInv_of_cases hinv (pathAppTokenMaxTTLDelete_store_cases st d),
      storageInv_of_cases hinv (pathAppWrapTTLDelete_store_cases st d),
      pathAppDelete_inv hinv d⟩
  · intro hname happ hmax httl
    rw [pathAppCreateUpdate_eq op st d app0 hname happ]
    by_cases hnu : (mergedApp op app0 d).NumUses < 0
    · rw [if_pos hnu]
      exact ⟨_, rfl⟩
    · rw [if_neg hnu, if_pos ⟨hmax, httl⟩]
      exact ⟨_, rfl⟩

/-- C2: a create/update request that fails validation — negative merged
`num_uses`, or merged `tokenTTL > tokenMaxTTL` with `tokenMaxTTL > 0` —
returns an error response and performs no storage write; likewise the
`num-uses` field update with a negative supplied value on an existing App.
In each case the stored records are untouched. -/
theorem claim_C2_validation_rejects_without_write (op : Operation)
    (st : Storage) (d : AppFieldData) (app0 e0 : appStorageEntry) (n : Int)
    (hname : d.app_name ≠ "") :
    ((appEntry st d.app_name = .found app0 ∨
        (appEntry st d.app_name = .missing ∧ app0 = zeroAppStorageEntry)) →
     ((mergedApp op app0 d).NumUses < 0 ∨
       ((mergedApp op app0 d).TokenMaxTTL > 0 ∧
        (mergedApp op app0 d).TokenTTL > (mergedApp op app0 d).TokenMaxTTL)) →
     ∃ msg, pathAppCreateUpdate op st d = ⟨some (.error msg), none, st⟩) ∧
    (appEntry st (lowerStr d.app_name) = .found e0 →
     d.num_uses = some n → n < 0 →
     pathAppNumUsesUpdate st d =
       ⟨some (.error "num_uses cannot be negative"), none, st⟩) := by
  constructor
  · intro happ hbad
    rw [pathAppCreateUpdate_eq op st d app0 hname happ]
    rcases hbad with hnu | httl
    · rw [if_pos hnu]
      exact ⟨_, rfl⟩
    · by_cases hnu : (mergedApp op app0 d).NumUses < 0
      · rw [if_pos hnu]
        exact ⟨_, rfl⟩
      · rw [if_neg hnu, if_pos httl]
        exact ⟨_, rfl⟩
  · intro hfound hnum hneg
    unfold pathAppNumUsesUpdate
    rw [if_neg hname, hfound, hnum]
    simp [hneg]

/-- C3: on update of an existing App, every field not supplied in the
request retains its prior stored value; on create of a fresh App, every
unsupplied field takes its documented default (`policies` parses
`"default"`, the numeric and TTL fields are zero). -/
theorem claim_C3_update_retains_create_defaults (st : Storage)
    (d : AppFieldData) (e0 : appStorageEntry) (hname : d.app_name ≠ "") :
    (storageGet st (appKey d.app_name) = some (.app e0) →
     (pathAppCreateUpdate .update st d).resp = none →
     ∃ e1, storageGet (pathAppCreateUpdate .update st d).store
         (appKey d.app_name) = some (.app e1) ∧
       (d.policies = none → e1.Policies = e0.Policies) ∧
       (d.num_uses = none → e1.NumUses = e0.NumUses) ∧
       (d.userid_ttl = none → e1.UserIDTTL = e0.UserIDTTL) ∧
       (d.token_ttl = none → e1.TokenTTL = e0.TokenTTL) ∧
       (d.token_max_ttl = none → e1.TokenMaxTTL = e0.TokenMaxTTL) ∧
       (d.wrap_ttl = none → e1.WrapTTL = e0.WrapTTL)) ∧
    (storageGet st (appKey d.app_name) = none →
     (pathAppCreateUpdate .create st d).resp = none →
     ∃ e1, storageGet (pathAppCreateUpdate .create st d).store
         (appKey d.app_name) = some (.app e1) ∧
       (d.policies = none → e1.Policies = ParsePolicies "default") ∧
       (d.num_uses = none → e1.NumUses = 0) ∧
       (d.userid_ttl = none → e1.UserIDTTL = 0) ∧
       (d.token_ttl = none → e1.TokenTTL = 0) ∧
       (d.token_max_ttl = none → e1.TokenMaxTTL = 0) ∧
       (d.wrap_ttl = none → e1.WrapTTL = 0)) := by
  constructor
  · intro hget hresp
    have happ : appEntry st d.app_name = .found e0 := by
      rw [appEntry_eq_of_ne hname, hget]
    rw [pathAppCreateUpdate_eq .update st d e0 hname (Or.inl happ)] at hresp ⊢
    by_cases h1 : (mergedApp .update e0 d).NumUses < 0
    · rw [if_pos h1] at hresp
      simp at hresp
    · rw [if_neg h1] at hresp ⊢
      by_cases h2 : (mergedApp .update e0 d).TokenMaxTTL > 0 ∧
          (mergedApp .update e0 d).TokenTTL >
            (mergedApp .update e0 d).TokenMaxTTL
      · rw [if_pos h2] at hresp
        simp at hresp
      · rw [if_neg h2]
        refine ⟨mergedApp .update e0 d, ?_, ?_, ?_, ?_, ?_, ?_, ?_⟩
        · show storageGet (setAppEntry st d.app_name _) _ = _
          unfold setAppEntry
          exact storageGet_storagePut_self st _ _
        all_goals intro hf
        all_goals simp [mergedApp_eq, hf]
  · intro hget hresp
    have happ : appEntry st d.app_name = .missing := by
      rw [appEntry_eq_of_ne hname, hget]
    rw [pathAppCreateUpdate_eq .create st d zeroAppStorageEntry hname
      (Or.inr ⟨happ, rfl⟩)] at hresp ⊢
    by_cases h1 : (mergedApp .create zeroAppStorageEntry d).NumUses < 0
    · rw [if_pos h1] at hresp
      simp at hresp
    · rw [if_neg h1] at hresp ⊢
      by_cases h2 : (mergedApp .create zeroAppStorageEntry d).TokenMaxTTL > 0 ∧
          (mergedApp .create zeroAppStorageEntry d).TokenTTL >
            (mergedApp .create zeroAppStorageEntry d).TokenMaxTTL
      · rw [if_pos h2] at hresp
        simp at hresp
      · rw [if_neg h2]
        refine ⟨mergedApp .create zeroAppStorageEntry d, ?_, ?_, ?_, ?_, ?_,
          ?_, ?_⟩
        · show storageGet (setAppEntry st d.app_name _) _ = _
          unfold setAppEntry
          exact storageGet_storagePut_self st _ _
        all_goals intro hf
        all_goals
          simp [mergedApp_eq, hf, zeroAppStorageEntry, durationFromSeconds,
            wrap64]

/-- C4: deleting a single field of an existing App stores exactly the prior
record with that one field reset to its zero value: every other field of
the record is unchanged, and the record sits under the same key. -/
theorem claim_C4_field_delete_frame (st : Storage) (d : AppFieldData)
    (e0 : appStorageEntry) (hname : d.app_name ≠ "")
    (hget : storageGet st (appKey d.app_name) = some (.app e0)) :
    pathAppPoliciesDelete st d =
      ⟨none, none, setAppEntry st d.app_name { e0 with Policies := [] }⟩ ∧
    pathAppNumUsesDelete st d =
      ⟨none, none, setAppEntry st d.app_name { e0 with NumUses := 0 }⟩ ∧
    pathAppUserIDTTLDelete st d =
      ⟨none, none, setAppEntry st d.app_name { e0 with UserIDTTL := 0 }⟩ ∧
    pathAppTokenTTLDelete st d =
      ⟨none, none, setAppEntry st d.app_name { e0 with TokenTTL := 0 }⟩ ∧
    pathAppTokenMaxTTLDelete st d =
      ⟨none, none, setAppEntry st d.app_name { e0 with TokenMaxTTL := 0 }⟩ ∧
    pathAppWrapTTLDelete st d =
      ⟨none, none, setAppEntry st d.app_name { e0 with WrapTTL := 0 }⟩ ∧
    storageGet (pathAppPoliciesDelete st d).store (appKey d.app_name) =
      some (.app { e0 with Policies := [] }) := by
  have happ : appEntry st (lowerStr d.app_name) = .found e0 := by
    rw [appEntry_lowerStr hname, hget]
  refine ⟨?_, ?_, ?_, ?_, ?_, ?_, ?_⟩
  · unfold pathAppPoliciesDelete
    rw [if_neg hname, happ]
    rfl
  · unfold pathAppNumUsesDelete
    rw [if_neg hname, happ]
    rfl
  · unfold pathAppUserIDTTLDelete
    rw [if_neg hname, happ]
    rfl
  · unfold pathAppTokenTTLDelete
    rw [if_neg hname, happ]
    rfl
  · unfold pathAppTokenMaxTTLDelete
    rw [if_neg hname, happ]
    rfl
  · unfold pathAppWrapTTLDelete
    rw [if_neg hname, happ]
    rfl
  · unfold pathAppPoliciesDelete
    rw [if_neg hname, happ]
    show storageGet (setAppEntry st d.app_name _) _ = _
    unfold setAppEntry
    exact storageGet_storagePut_self st _ _

/-- C5: App names that agree up to letter case address the same storage
entry: the storage key is built from the lower-cased name, a record written
under one casing is found by `appEntry` and returned by `pathAppRead` under
the other casing. -/
theorem claim_C5_case_insensitive_keying (st : Storage) (n1 n2 : String)
    (e : appStorageEntry) (hlow : lowerStr n1 = lowerStr n2)
    (h2 : n2 ≠ "") :
    appKey n1 = appKey n2 ∧
    appEntry (setAppEntry st n1 e) n2 = .found e ∧
    pathAppRead (setAppEntry st n1 e) { app_name := n2 } =
      ⟨some (.withData (appReadResponseData e)), none, setAppEntry st n1 e⟩ := by
  have hk : appKey n1 = appKey n2 := by
    unfold appKey
    rw [hlow]
  have hg : storageGet (setAppEntry st n1 e) (appKey n2) = some (.app e) := by
    rw [← hk]
    unfold setAppEntry
    exact storageGet_storagePut_self st _ _
  refine ⟨hk, ?_, ?_⟩
  · rw [appEntry_eq_of_ne h2, hg]
  · unfold pathAppRead
    rw [if_neg h2, appEntry_lowerStr h2, hg]

/-- C6: reading an App that has no stored record — whole-record read or any
per-field read — returns the empty "not found" result with no error and no
store change. -/
theorem claim_C6_missing_app_reads_not_found (st : Storage)
    (d : AppFieldData) (hname : d.app_name ≠ "")
    (hget : storageGet st (appKey d.app_name) = none) :
    pathAppRead st d = ⟨none, none, st⟩ ∧
    pathAppPoliciesRead st d = ⟨none, none, st⟩ ∧
    pathAppNumUsesRead st d = ⟨none, none, st⟩ ∧
    pathAppUserIDTTLRead st d = ⟨none, none, st⟩ ∧
    pathAppTokenTTLRead st d = ⟨none, none, st⟩ ∧
    pathAppTokenMaxTTLRead st d = ⟨none, none, st⟩ ∧
    pathAppWrapTTLRead st d = ⟨none, none, st⟩ := by
  have happ : appEntry st (lowerStr d.app_name) = .missing := by
    rw [appEntry_lowerStr hname, hget]
  refine ⟨?_, ?_, ?_, ?_, ?_, ?_, ?_⟩
  · unfold pathAppRead
    rw [if_neg hname, happ]
  · unfold pathAppPoliciesRead
    rw [if_neg hname, happ]
  · unfold pathAppNumUsesRead
    rw [if_neg hname, happ]
  · unfold pathAppUserIDTTLRead
    rw [if_neg hname, happ]
  · unfold pathAppTokenTTLRead
    rw [if_neg hname, happ]
  · unfold pathAppTokenMaxTTLRead
    rw [if_neg hname, happ]
  · unfold pathAppWrapTTLRead
    rw [if_neg hname, happ]

/-- Characterization of `handleAppCredsCommon` on a well-formed request
against a registered App with a fresh UserID: the entry copying the App's
`NumUses` and `UserIDTTL` is stored under the hashed-UserID key, and the
response carries the UserID exactly when it was not client-specified. -/
theorem handleAppCredsCommon_eq (hash : String → String) (st : Storage)
    (d : AppFieldData) (specified : Bool) (app : appStorageEntry)
    (u : String) (hname : d.app_name ≠ "") (huid : d.user_id = some u)
    (hu : u ≠ "")
    (happ : appEntry st (lowerStr d.app_name) = .found app)
    (hfree : storageGet st (userIDEntryKey hash selectorTypeApp u) = none) :
    handleAppCredsCommon hash st d specified =
      ⟨if specified = true then none
        else some (.withData [("user_id", .str u)]), none,
        storagePut st (userIDEntryKey hash selectorTypeApp u)
          (.userID ⟨selectorTypeApp, d.app_name, app.NumUses,
            app.UserIDTTL⟩)⟩ := by
  unfold handleAppCredsCommon registerUserIDEntry
  rw [if_neg hname, huid]
  simp only [Option.getD_some]
  rw [if_neg hu, happ]
  dsimp only
  rw [hfree]
  cases specified <;> rfl

/-- C7: a credential request on the `creds` endpoint answers with the
server-generated UserID in the payload, while `creds-specific` with a
client-supplied UserID answers with no payload; both register a UserID
entry for the App under the hashed-UserID key. -/
theorem claim_C7_creds_payload_and_registration (hash : String → String)
    (genUUID : String) (st : Storage) (d : AppFieldData)
    (app : appStorageEntry) (u : String)
    (hname : d.app_name ≠ "")
    (happ : appEntry st (lowerStr d.app_name) = .found app) :
    (genUUID ≠ "" →
     storageGet st (userIDEntryKey hash selectorTypeApp genUUID) = none →
     pathAppCredsRead hash genUUID st d =
       ⟨some (.withData [("user_id", .str genUUID)]), none,
         storagePut st (userIDEntryKey hash selectorTypeApp genUUID)
           (.userID ⟨selectorTypeApp, d.app_name, app.NumUses,
             app.UserIDTTL⟩)⟩ ∧
     storageGet (pathAppCredsRead hash genUUID st d).store
         (userIDEntryKey hash selectorTypeApp genUUID) =
       some (.userID ⟨selectorTypeApp, d.app_name, app.NumUses,
         app.UserIDTTL⟩)) ∧
    (d.user_id = some u → u ≠ "" →
     storageGet st (userIDEntryKey hash selectorTypeApp u) = none →
     pathAppCredsSpecificUpdate hash st d =
       ⟨none, none,
         storagePut st (userIDEntryKey hash selectorTypeApp u)
           (.userID ⟨selectorTypeApp, d.app_name, app.NumUses,
             app.UserIDTTL⟩)⟩ ∧
     storageGet (pathAppCredsSpecificUpdate hash st d).store
         (userIDEntryKey hash selectorTypeApp u) =
       some (.userID ⟨selectorTypeApp, d.app_name, app.NumUses,
         app.UserIDTTL⟩)) := by
  constructor
  · intro hg hfree
    have heq := handleAppCredsCommon_eq hash st
      { d with user_id := some genUUID } false app genUUID hname rfl hg happ
      hfree
    unfold pathAppCredsRead
    rw [heq]
    exact ⟨rfl, storageGet_storagePut_self st _ _⟩
  · intro huid hu hfree
    have heq := handleAppCredsCommon_eq hash st d true app u hname huid hu
      happ hfree
    unfold pathAppCredsSpecificUpdate
    rw [heq]
    exact ⟨rfl, storageGet_storagePut_self st _ _⟩

theorem pathAppDelete_userIDKey (st : Storage) (d : AppFieldData)
    (hash : String → String) (ty uid : String) :
    storageGet (pathAppDelete st d).store (userIDEntryKey hash ty uid) =
      storageGet st (userIDEntryKey hash ty uid) := by
  unfold pathAppDelete
  split
  · rfl
  · exact storageGet_storageDelete_ne st (userIDEntryKey_ne_appKey hash ty uid _)

/-- C8: the UserID entry issued against a registered App copies `NumUses`
and `UserIDTTL` from the App's config as stored at issuance time, and no
subsequent App-configuration operation — create/update, any field update,
any field delete, or deleting the App — touches the issued entry. -/
theorem claim_C8_issued_entry_frozen (hash : String → String) (st : Storage)
    (d : AppFieldData) (app : appStorageEntry) (u : String)
    (specified : Bool)
    (hname : d.app_name ≠ "")
    (happ : appEntry st (lowerStr d.app_name) = .found app)
    (huid : d.user_id = some u) (hu : u ≠ "")
    (hfree : storageGet st (userIDEntryKey hash selectorTypeApp u) = none) :
    storageGet (handleAppCredsCommon hash st d specified).store
        (userIDEntryKey hash selectorTypeApp u) =
      some (.userID ⟨selectorTypeApp, d.app_name, app.NumUses,
        app.UserIDTTL⟩) ∧
    (∀ (r : Storage) (op : Operation) (d2 : AppFieldData),
      storageGet (pathAppCreateUpdate op r d2).store
          (userIDEntryKey hash selectorTypeApp u) =
        storageGet r (userIDEntryKey hash selectorTypeApp u) ∧
      storageGet (pathAppPoliciesUpdate r d2).store
          (userIDEntryKey hash selectorTypeApp u) =
        storageGet r (userIDEntryKey hash selectorTypeApp u) ∧
      storageGet (pathAppNumUsesUpdate r d2).store
          (userIDEntryKey hash selectorTypeApp u) =
        storageGet r (userIDEntryKey hash selectorTypeApp u) ∧
      storageGet (pathAppUserIDTTLUpdate r d2).store
          (userIDEntryKey hash selectorTypeApp u) =
        storageGet r (userIDEntryKey hash selectorTypeApp u) ∧
      storageGet (pathAppTokenTTLUpdate r d2).store
          (userIDEntryKey hash selectorTypeApp u) =
        storageGet r (userIDEntryKey hash selectorTypeApp u) ∧
      storageGet (pathAppTokenMaxTTLUpdate r d2).store
          (userIDEntryKey hash selectorTypeApp u) =
        storageGet r (userIDEntryKey hash selectorTypeApp u) ∧
      storageGet (pathAppWrapTTLUpdate r d2).store
          (userIDEntryKey hash selectorTypeApp u) =
        storageGet r (userIDEntryKey hash selectorTypeApp u) ∧
      storageGet (pathAppPoliciesDelete r d2).store
          (userIDEntryKey hash selectorTypeApp u) =
        storageGet r (userIDEntryKey hash selectorTypeApp u) ∧
      storageGet (pathAppNumUsesDelete r d2).store
          (userIDEntryKey hash selectorTypeApp u) =
        storageGet r (userIDEntryKey hash selectorTypeApp u) ∧
      storageGet (pathAppUserIDTTLDelete r d2).store
          (userIDEntryKey hash selectorTypeApp u) =
        storageGet r (userIDEntryKey hash selectorTypeApp u) ∧
      storageGet (pathAppTokenTTLDelete r d2).store
          (userIDEntryKey hash selectorTypeApp u) =
        storageGet r (userIDEntryKey hash selectorTypeApp u) ∧
      storageGet (pathAppTokenMaxTTLDelete r d2).store
          (userIDEntryKey hash selectorTypeApp u) =
        storageGet r (userIDEntryKey hash selectorTypeApp u) ∧
      storageGet (pathAppWrapTTLDelete r d2).store
          (userIDEntryKey hash selectorTypeApp u) =
        storageGet r (userIDEntryKey hash selectorTypeApp u) ∧
      storageGet (pathAppDelete r d2).store
          (userIDEntryKey hash selectorTypeApp u) =
        storageGet r (userIDEntryKey hash selectorTypeApp u)) := by
  constructor
  · rw [handleAppCredsCommon_eq hash st d specified app u hname huid hu happ
      hfree]
    exact storageGet_storagePut_self st _ _
  · intro r op d2
    exact ⟨storageGet_userIDKey_of_cases
        (pathAppCreateUpdate_store_cases op r d2) hash selectorTypeApp u,
      storageGet_userIDKey_of_cases
        (pathAppPoliciesUpdate_store_cases r d2) hash selectorTypeApp u,
      storageGet_userIDKey_of_cases
        (pathAppNumUsesUpdate_store_cases r d2) hash selectorTypeApp u,
      storageGet_userIDKey_of_cases
        (pathAppUserIDTTLUpdate_store_cases r d2) hash selectorTypeApp u,
      storageGet_userIDKey_of_cases
        (pathAppTokenTTLUpdate_store_cases r d2) hash selectorTypeApp u,
      storageGet_userIDKey_of_cases
        (pathAppTokenMaxTTLUpdate_store_cases r d2) hash selectorTypeApp u,
      storageGet_userIDKey_of_cases
        (pathAppWrapTTLUpdate_store_cases r d2) hash selectorTypeApp u,
      storageGet_userIDKey_of_cases
        (pathAppPoliciesDelete_store_cases r d2) hash selectorTypeApp u,
      storageGet_userIDKey_of_cases
        (pathAppNumUsesDelete_store_cases r d2) hash selectorTypeApp u,
      storageGet_userIDKey_of_cases
        (pathAppUserIDTTLDelete_store_cases r d2) hash selectorTypeApp u,
      storageGet_userIDKey_of_cases
        (pathAppTokenTTLDelete_store_cases r d2) hash selectorTypeApp u,
      storageGet_userIDKey_of_cases
        (pathAppTokenMaxTTLDelete_store_cases r d2) hash selectorTypeApp u,
      storageGet_userIDKey_of_cases
        (pathAppWrapTTLDelete_store_cases r d2) hash selectorTypeApp u,
      pathAppDelete_userIDKey r d2 hash selectorTypeApp u⟩

/-- C10: a per-field update addressed at an App with no stored record
returns the empty "not found" result — no error, no write, no record
created — whatever field value was supplied. -/
theorem claim_C10_field_update_missing_app_no_write (st : Storage)
    (d : AppFieldData) (hname : d.app_name ≠ "")
    (hget : storageGet st (appKey d.app_name) = none) :
    pathAppPoliciesUpdate st d = ⟨none, none, st⟩ ∧
    pathAppNumUsesUpdate st d = ⟨none, none, st⟩ ∧
    pathAppUserIDTTLUpdate st d = ⟨none, none, st⟩ ∧
    pathAppTokenTTLUpdate st d = ⟨none, none, st⟩ ∧
    pathAppTokenMaxTTLUpdate st d = ⟨none, none, st⟩ ∧
    pathAppWrapTTLUpdate st d = ⟨none, none, st⟩ := by
  have happ : appEntry st (lowerStr d.app_name) = .missing := by
    rw [appEntry_lowerStr hname, hget]
  refine ⟨?_, ?_, ?_, ?_, ?_, ?_⟩
  · unfold pathAppPoliciesUpdate
    rw [if_neg hname, happ]
  · unfold pathAppNumUsesUpdate
    rw [if_neg hname, happ]
  · unfold pathAppUserIDTTLUpdate
    rw [if_neg hname, happ]
  · unfold pathAppTokenTTLUpdate
    rw [if_neg hname, happ]
  · unfold pathAppTokenMaxTTLUpdate
    rw [if_neg hname, happ]
  · unfold pathAppWrapTTLUpdate
    rw [if_neg hname, happ]

/-- C9 (amended): in the source, a field-update handler takes the shared
`appLock` only inside `appEntry` and the exclusive `appLock` only inside
`setAppEntry`; no lock spans the whole read-modify-write.  Run without
interleaving, the two-step thread decomposition agrees with composing the
handlers and both field updates land in the stored record; under the
read-read-write-write interleaving both threads complete but the first
update is lost. -/
theorem claim_C9_unlocked_rmw_loses_update (st : Storage) (name : String)
    (e : appStorageEntry) (n u : Int) (hname : name ≠ "")
    (hget : storageGet st (appKey name) = some (.app e)) (hn : 0 ≤ n) :
    (runSched st (initThread (numUsesFieldUpdate name n))
        (initThread (userIDTTLFieldUpdate name u))
        [true, true, false, false]).1 =
      (pathAppUserIDTTLUpdate
        (pathAppNumUsesUpdate st
          { app_name := name, num_uses := some n }).store
        { app_name := name, userid_ttl := some u }).store ∧
    storageGet (runSched st (initThread (numUsesFieldUpdate name n))
        (initThread (userIDTTLFieldUpdate name u))
        [true, true, false, false]).1 (appKey name) =
      some (.app { e with
        NumUses := n
        UserIDTTL := durationFromSeconds u }) ∧
    storageGet (runSched st (initThread (numUsesFieldUpdate name n))
        (initThread (userIDTTLFieldUpdate name u))
        [true, false, true, false]).1 (appKey name) =
      some (.app { e with UserIDTTL := durationFromSeconds u }) ∧
    (runSched st (initThread (numUsesFieldUpdate name n))
        (initThread (userIDTTLFieldUpdate name u))
        [true, false, true, false]).2.1.done = true ∧
    (runSched st (initThread (numUsesFieldUpdate name n))
        (initThread (userIDTTLFieldUpdate name u))
        [true, false, true, false]).2.2.done = true := by
  have happl : appEntry st (lowerStr name) = .found e := by
    rw [appEntry_lowerStr hname, hget]
  have hset : ∀ (s : Storage) (a : appStorageEntry),
      storageGet (setAppEntry s name a) (appKey name) = some (.app a) := by
    intro s a
    unfold setAppEntry
    exact storageGet_storagePut_self s _ _
  have happl2 : ∀ (s : Storage) (a : appStorageEntry),
      appEntry (setAppEntry s name a) (lowerStr name) = .found a := by
    intro s a
    rw [appEntry_lowerStr hname, hset s a]
  have hnn : ¬ n < 0 := not_lt.mpr hn
  refine ⟨?_, ?_, ?_, ?_, ?_⟩
  · simp [runSched, threadStep, initThread, numUsesFieldUpdate,
      userIDTTLFieldUpdate, happl, happl2, pathAppNumUsesUpdate,
      pathAppUserIDTTLUpdate, hname, hnn]
  · simp [runSched, threadStep, initThread, numUsesFieldUpdate,
      userIDTTLFieldUpdate, happl, happl2, hset]
  · simp [runSched, threadStep, initThread, numUsesFieldUpdate,
      userIDTTLFieldUpdate, happl, happl2, hset]
  · simp [runSched, threadStep, initThread, numUsesFieldUpdate,
      userIDTTLFieldUpdate, happl, happl2]
  · simp [runSched, threadStep, initThread, numUsesFieldUpdate,
      userIDTTLFieldUpdate, happl, happl2]

/-- Counterexample to C9 as stated: starting from an App `x` with
`NumUses = 1`, a `num-uses := 5` update thread and a `userid-ttl := 7`
update thread both run to completion under the read-read-write-write
interleaving that the per-section locks permit, yet the committed state
still has `NumUses = 1`: the first update is lost, so the committed state
does not reflect both updates. -/
theorem claim_C9_counterexample :
    (runSched [("app/x", .app ⟨[], 1, 0, 0, 0, 0⟩)]
        (initThread (numUsesFieldUpdate "x" 5))
        (initThread (userIDTTLFieldUpdate "x" 7))
        [true, false, true, false]).2.1.done = true ∧
    (runSched [("app/x", .app ⟨[], 1, 0, 0, 0, 0⟩)]
        (initThread (numUsesFieldUpdate "x" 5))
        (initThread (userIDTTLFieldUpdate "x" 7))
        [true, false, true, false]).2.2.done = true ∧
    storageGet (runSched [("app/x", .app ⟨[], 1, 0, 0, 0, 0⟩)]
        (initThread (numUsesFieldUpdate "x" 5))
        (initThread (userIDTTLFieldUpdate "x" 7))
        [true, false, true, false]).1 "app/x" =
      some (.app ⟨[], 1, 7000000000, 0, 0, 0⟩) ∧
    storageGet (runSched [("app/x", .app ⟨[], 1, 0, 0, 0, 0⟩)]
        (initThread (numUsesFieldUpdate "x" 5))
        (initThread (userIDTTLFieldUpdate "x" 7))
        [true, false, true, false]).1 "app/x" ≠
      some (.app ⟨[], 5, 7000000000, 0, 0, 0⟩) := by
  refine ⟨rfl, rfl, rfl, ?_⟩
  decide

/-- Witness for C1: at the empty store, a create whose merged TTLs violate
the ordering is rejected with an error response and no write. -/
theorem claim_C1_witness :
    ∃ msg, pathAppCreateUpdate .create []
        { app_name := "b", token_ttl := some 2, token_max_ttl := some 1 } =
      ⟨some (.error msg), none, []⟩ :=
  (claim_C1_ttl_ordering_invariant .create []
    { app_name := "b", token_ttl := some 2, token_max_ttl := some 1 }
    zeroAppStorageEntry (by decide)).2 (by decide) (Or.inr ⟨by decide, rfl⟩)
    (by decide) (by decide)

/-- Witness for C2: an update carrying `num_uses = -1` against an existing
App is rejected and the store is returned unchanged. -/
theorem claim_C2_witness :
    ∃ msg, pathAppCreateUpdate .update
        [("app/a", .app ⟨[], 0, 0, 0, 0, 0⟩)]
        { app_name := "a", num_uses := some (-1) } =
      ⟨some (.error msg), none, [("app/a", .app ⟨[], 0, 0, 0, 0, 0⟩)]⟩ :=
  (claim_C2_validation_rejects_without_write .update
    [("app/a", .app ⟨[], 0, 0, 0, 0, 0⟩)]
    { app_name := "a", num_uses := some (-1) }
    ⟨[], 0, 0, 0, 0, 0⟩ ⟨[], 0, 0, 0, 0, 0⟩ (-1) (by decide)).1
    (Or.inl (by decide)) (Or.inl (by decide))

/-- Witness for C6: all reads of the absent App `ghost` on the empty store
answer "not found" with no error. -/
theorem claim_C6_witness :
    pathAppRead [] { app_name := "ghost" } = ⟨none, none, []⟩ ∧
    pathAppPoliciesRead [] { app_name := "ghost" } = ⟨none, none, []⟩ ∧
    pathAppNumUsesRead [] { app_name := "ghost" } = ⟨none, none, []⟩ ∧
    pathAppUserIDTTLRead [] { app_name := "ghost" } = ⟨none, none, []⟩ ∧
    pathAppTokenTTLRead [] { app_name := "ghost" } = ⟨none, none, []⟩ ∧
    pathAppTokenMaxTTLRead [] { app_name := "ghost" } = ⟨none, none, []⟩ ∧
    pathAppWrapTTLRead [] { app_name := "ghost" } = ⟨none, none, []⟩ :=
  claim_C6_missing_app_reads_not_found [] { app_name := "ghost" }
    (by decide) (by decide)

/-- Witness for C10: all six field updates of the absent App `ghost` on the
empty store answer "not found" and write nothing, although valid values
were supplied. -/
theorem claim_C10_witness :
    pathAppPoliciesUpdate []
      { app_name := "ghost", policies := some "p", num_uses := some 3,
        userid_ttl := some 4, token_ttl := some 5, token_max_ttl := some 6,
        wrap_ttl := some 7 } = ⟨none, none, []⟩ ∧
    pathAppNumUsesUpdate []
      { app_name := "ghost", policies := some "p", num_uses := some 3,
        userid_ttl := some 4, token_ttl := some 5, token_max_ttl := some 6,
        wrap_ttl := some 7 } = ⟨none, none, []⟩ ∧
    pathAppUserIDTTLUpdate []
      { app_name := "ghost", policies := some "p", num_uses := some 3,
        userid_ttl := some 4, token_ttl := some 5, token_max_ttl := some 6,
        wrap_ttl := some 7 } = ⟨none, none, []⟩ ∧
    pathAppTokenTTLUpdate []
      { app_name := "ghost", policies := some "p", num_uses := some 3,
        userid_ttl := some 4, token_ttl := some 5, token_max_ttl := some 6,
        wrap_ttl := some 7 } = ⟨none, none, []⟩ ∧
    pathAppTokenMaxTTLUpdate []
      { app_name := "ghost", policies := some "p", num_uses := some 3,
        userid_ttl := some 4, token_ttl := some 5, token_max_ttl := some 6,
        wrap_ttl := some 7 } = ⟨none, none, []⟩ ∧
    pathAppWrapTTLUpdate []
      { app_name := "ghost", policies := some "p", num_uses := some 3,
        userid_ttl := some 4, token_ttl := some 5, token_max_ttl := some 6,
        wrap_ttl := some 7 } = ⟨none, none, []⟩ :=
  claim_C10_field_update_missing_app_no_write []
    { app_name := "ghost", policies := some "p", num_uses := some 3,
        userid_ttl := some 4, token_ttl := some 5, token_max_ttl := some 6,
        wrap_ttl := some 7 } (by decide) (by decide)

/-- Witness for C3: updating App `a` with only `num_uses` supplied keeps
the prior `policies` and TTL fields; the implications are instantiated at a
concrete stored record. -/
theorem claim_C3_witness :
    ∃ e1, storageGet (pathAppCreateUpdate .update
        [("app/a", .app ⟨["p"], 2, 3, 4, 5, 6⟩)]
        { app_name := "a", num_uses := some 7 }).store (appKey "a") =
      some (.app e1) ∧
    (({ app_name := "a", num_uses := some 7 } : AppFieldData).policies =
        none → e1.Policies = (⟨["p"], 2, 3, 4, 5, 6⟩ : appStorageEntry).Policies) ∧
    (({ app_name := "a", num_uses := some 7 } : AppFieldData).num_uses =
        none → e1.NumUses = (⟨["p"], 2, 3, 4, 5, 6⟩ : appStorageEntry).NumUses) ∧
    (({ app_name := "a", num_uses := some 7 } : AppFieldData).userid_ttl =
        none → e1.UserIDTTL = (⟨["p"], 2, 3, 4, 5, 6⟩ : appStorageEntry).UserIDTTL) ∧
    (({ app_name := "a", num_uses := some 7 } : AppFieldData).token_ttl =
        none → e1.TokenTTL = (⟨["p"], 2, 3, 4, 5, 6⟩ : appStorageEntry).TokenTTL) ∧
    (({ app_name := "a", num_uses := some 7 } : AppFieldData).token_max_ttl =
        none → e1.TokenMaxTTL = (⟨["p"], 2, 3, 4, 5, 6⟩ : appStorageEntry).TokenMaxTTL) ∧
    (({ app_name := "a", num_uses := some 7 } : AppFieldData).wrap_ttl =
        none → e1.WrapTTL = (⟨["p"], 2, 3, 4, 5, 6⟩ : appStorageEntry).WrapTTL) :=
  (claim_C3_update_retains_create_defaults
    [("app/a", .app ⟨["p"], 2, 3, 4, 5, 6⟩)]
    { app_name := "a", num_uses := some 7 } ⟨["p"], 2, 3, 4, 5, 6⟩
    (by decide)).1 (by decide) (by decide)

/-- Witness for C4: each per-field delete on App `a` (addressed as `A`)
stores the prior record with exactly that field zeroed. -/
theorem claim_C4_witness :
    pathAppPoliciesDelete [("app/a", .app ⟨["p"], 2, 3, 4, 5, 6⟩)]
        { app_name := "A" } =
      ⟨none, none, setAppEntry [("app/a", .app ⟨["p"], 2, 3, 4, 5, 6⟩)] "A"
        { (⟨["p"], 2, 3, 4, 5, 6⟩ : appStorageEntry) with Policies := [] }⟩ ∧
    pathAppNumUsesDelete [("app/a", .app ⟨["p"], 2, 3, 4, 5, 6⟩)]
        { app_name := "A" } =
      ⟨none, none, setAppEntry [("app/a", .app ⟨["p"], 2, 3, 4, 5, 6⟩)] "A"
        { (⟨["p"], 2, 3, 4, 5, 6⟩ : appStorageEntry) with NumUses := 0 }⟩ ∧
    pathAppUserIDTTLDelete [("app/a", .app ⟨["p"], 2, 3, 4, 5, 6⟩)]
        { app_name := "A" } =
      ⟨none, none, setAppEntry [("app/a", .app ⟨["p"], 2, 3, 4, 5, 6⟩)] "A"
        { (⟨["p"], 2, 3, 4, 5, 6⟩ : appStorageEntry) with UserIDTTL := 0 }⟩ ∧
    pathAppTokenTTLDelete [("app/a", .app ⟨["p"], 2, 3, 4, 5, 6⟩)]
        { app_name := "A" } =
      ⟨none, none, setAppEntry [("app/a", .app ⟨["p"], 2, 3, 4, 5, 6⟩)] "A"
        { (⟨["p"], 2, 3, 4, 5, 6⟩ : appStorageEntry) with TokenTTL := 0 }⟩ ∧
    pathAppTokenMaxTTLDelete [("app/a", .app ⟨["p"], 2, 3, 4, 5, 6⟩)]
        { app_name := "A" } =
      ⟨none, none, setAppEntry [("app/a", .app ⟨["p"], 2, 3, 4, 5, 6⟩)] "A"
        { (⟨["p"], 2, 3, 4, 5, 6⟩ : appStorageEntry) with TokenMaxTTL := 0 }⟩ ∧
    pathAppWrapTTLDelete [("app/a", .app ⟨["p"], 2, 3, 4, 5, 6⟩)]
        { app_name := "A" } =
      ⟨none, none, setAppEntry [("app/a", .app ⟨["p"], 2, 3, 4, 5, 6⟩)] "A"
        { (⟨["p"], 2, 3, 4, 5, 6⟩ : appStorageEntry) with WrapTTL := 0 }⟩ ∧
    storageGet (pathAppPoliciesDelete [("app/a", .app ⟨["p"], 2, 3, 4, 5, 6⟩)]
        { app_name := "A" }).store (appKey "A") =
      some (.app { (⟨["p"], 2, 3, 4, 5, 6⟩ : appStorageEntry) with
        Policies := [] }) :=
  claim_C4_field_delete_frame [("app/a", .app ⟨["p"], 2, 3, 4, 5, 6⟩)]
    { app_name := "A" } ⟨["p"], 2, 3, 4, 5, 6⟩ (by decide) (by decide)

/-- Witness for C5: a record written under `AppOne` is read back under
`APPONE`. -/
theorem claim_C5_witness :
    appKey "AppOne" = appKey "APPONE" ∧
    appEntry (setAppEntry [] "AppOne" ⟨["p"], 2, 3, 4, 5, 6⟩) "APPONE" =
      .found ⟨["p"], 2, 3, 4, 5, 6⟩ ∧
    pathAppRead (setAppEntry [] "AppOne" ⟨["p"], 2, 3, 4, 5, 6⟩)
        { app_name := "APPONE" } =
      ⟨some (.withData (appReadResponseData ⟨["p"], 2, 3, 4, 5, 6⟩)), none,
        setAppEntry [] "AppOne" ⟨["p"], 2, 3, 4, 5, 6⟩⟩ :=
  claim_C5_case_insensitive_keying [] "AppOne" "APPONE"
    ⟨["p"], 2, 3, 4, 5, 6⟩ (by decide) (by decide)

/-- Witness for C7: with the identity salted hasher, `creds` on App `a`
returns the generated UserID `u1` and registers its entry; `creds-specific`
with UserID `u2` returns no payload and registers its entry. -/
theorem claim_C7_witness :
    (pathAppCredsRead (fun s => s) "u1"
        [("app/a", .app ⟨["p"], 2, 3, 4, 5, 6⟩)] { app_name := "a" } =
      ⟨some (.withData [("user_id", .str "u1")]), none,
        storagePut [("app/a", .app ⟨["p"], 2, 3, 4, 5, 6⟩)]
          (userIDEntryKey (fun s => s) selectorTypeApp "u1")
          (.userID ⟨selectorTypeApp, "a",
            (⟨["p"], 2, 3, 4, 5, 6⟩ : appStorageEntry).NumUses,
            (⟨["p"], 2, 3, 4, 5, 6⟩ : appStorageEntry).UserIDTTL⟩)⟩ ∧
     storageGet (pathAppCredsRead (fun s => s) "u1"
        [("app/a", .app ⟨["p"], 2, 3, 4, 5, 6⟩)] { app_name := "a" }).store
        (userIDEntryKey (fun s => s) selectorTypeApp "u1") =
      some (.userID ⟨selectorTypeApp, "a",
        (⟨["p"], 2, 3, 4, 5, 6⟩ : appStorageEntry).NumUses,
        (⟨["p"], 2, 3, 4, 5, 6⟩ : appStorageEntry).UserIDTTL⟩)) ∧
    (({ app_name := "a", user_id := some "u2" } : AppFieldData).user_id =
        some "u2" → "u2" ≠ "" →
     storageGet [("app/a", .app ⟨["p"], 2, 3, 4, 5, 6⟩)]
        (userIDEntryKey (fun s => s) selectorTypeApp "u2") = none →
     pathAppCredsSpecificUpdate (fun s => s)
        [("app/a", .app ⟨["p"], 2, 3, 4, 5, 6⟩)]
        { app_name := "a", user_id := some "u2" } =
       ⟨none, none,
         storagePut [("app/a", .app ⟨["p"], 2, 3, 4, 5, 6⟩)]
           (userIDEntryKey (fun s => s) selectorTypeApp "u2")
           (.userID ⟨selectorTypeApp, "a",
             (⟨["p"], 2, 3, 4, 5, 6⟩ : appStorageEntry).NumUses,
             (⟨["p"], 2, 3, 4, 5, 6⟩ : appStorageEntry).UserIDTTL⟩)⟩ ∧
     storageGet (pathAppCredsSpecificUpdate (fun s => s)
        [("app/a", .app ⟨["p"], 2, 3, 4, 5, 6⟩)]
        { app_name := "a", user_id := some "u2" }).store
        (userIDEntryKey (fun s => s) selectorTypeApp "u2") =
      some (.userID ⟨selectorTypeApp, "a",
        (⟨["p"], 2, 3, 4, 5, 6⟩ : appStorageEntry).NumUses,
        (⟨["p"], 2, 3, 4, 5, 6⟩ : appStorageEntry).UserIDTTL⟩)) :=
  ⟨(claim_C7_creds_payload_and_registration (fun s => s) "u1"
      [("app/a", .app ⟨["p"], 2, 3, 4, 5, 6⟩)] { app_name := "a" }
      ⟨["p"], 2, 3, 4, 5, 6⟩ "u2" (by decide) (by decide)).1
      (by decide) (by decide),
   (claim_C7_creds_payload_and_registration (fun s => s) "u1"
      [("app/a", .app ⟨["p"], 2, 3, 4, 5, 6⟩)]
      { app_name := "a", user_id := some "u2" }
      ⟨["p"], 2, 3, 4, 5, 6⟩ "u2" (by decide) (by decide)).2⟩

/-- Witness for C8: the entry issued for UserID `u2` against App `a` copies
`NumUses = 2` and `UserIDTTL = 3` from the stored config, and the
App-mutation frame holds at the issued store. -/
theorem claim_C8_witness :
    storageGet (handleAppCredsCommon (fun s => s)
        [("app/a", .app ⟨["p"], 2, 3, 4, 5, 6⟩)]
        { app_name := "a", user_id := some "u2" } true).store
        (userIDEntryKey (fun s => s) selectorTypeApp "u2") =
      some (.userID ⟨selectorTypeApp, "a",
        (⟨["p"], 2, 3, 4, 5, 6⟩ : appStorageEntry).NumUses,
        (⟨["p"], 2, 3, 4, 5, 6⟩ : appStorageEntry).UserIDTTL⟩) :=
  (claim_C8_issued_entry_frozen (fun s => s)
    [("app/a", .app ⟨["p"], 2, 3, 4, 5, 6⟩)]
    { app_name := "a", user_id := some "u2" } ⟨["p"], 2, 3, 4, 5, 6⟩ "u2"
    true (by decide) (by decide) (by decide) (by decide) (by decide)).1

/-- Witness for C9 (amended), at the counterexample state: the sequential
run agrees with composing the handlers and keeps both updates, while the
interleaved run loses the `num-uses` update. -/
theorem claim_C9_witness :
    (runSched [("app/x", .app ⟨[], 1, 0, 0, 0, 0⟩)]
        (initThread (numUsesFieldUpdate "x" 5))
        (initThread (userIDTTLFieldUpdate "x" 7))
        [true, true, false, false]).1 =
      (pathAppUserIDTTLUpdate
        (pathAppNumUsesUpdate [("app/x", .app ⟨[], 1, 0, 0, 0, 0⟩)]
          { app_name := "x", num_uses := some 5 }).store
        { app_name := "x", userid_ttl := some 7 }).store ∧
    storageGet (runSched [("app/x", .app ⟨[], 1, 0, 0, 0, 0⟩)]
        (initThread (numUsesFieldUpdate "x" 5))
        (initThread (userIDTTLFieldUpdate "x" 7))
        [true, true, false, false]).1 (appKey "x") =
      some (.app { (⟨[], 1, 0, 0, 0, 0⟩ : appStorageEntry) with
        NumUses := 5
        UserIDTTL := durationFromSeconds 7 }) ∧
    storageGet (runSched [("app/x", .app ⟨[], 1, 0, 0, 0, 0⟩)]
        (initThread (numUsesFieldUpdate "x" 5))
        (initThread (userIDTTLFieldUpdate "x" 7))
        [true, false, true, false]).1 (appKey "x") =
      some (.app { (⟨[], 1, 0, 0, 0, 0⟩ : appStorageEntry) with
        UserIDTTL := durationFromSeconds 7 }) ∧
    (runSched [("app/x", .app ⟨[], 1, 0, 0, 0, 0⟩)]
        (initThread (numUsesFieldUpdate "x" 5))
        (initThread (userIDTTLFieldUpdate "x" 7))
        [true, false, true, false]).2.1.done = true ∧
    (runSched [("app/x", .app ⟨[], 1, 0, 0, 0, 0⟩)]
        (initThread (numUsesFieldUpdate "x" 5))
        (initThread (userIDTTLFieldUpdate "x" 7))
        [true, false, true, false]).2.2.done = true :=
  claim_C9_unlocked_rmw_loses_update [("app/x", .app ⟨[], 1, 0, 0, 0, 0⟩)]
    "x" ⟨[], 1, 0, 0, 0, 0⟩ 5 7 (by decide) (by decide) (by decide)
